import Mathlib

set_option maxRecDepth 8000
set_option exponentiation.threshold 2000

/-!
A verification development for the color-converter core in `src/app/page.tsx`.

Modelling conventions (shallow embedding of the JavaScript/TypeScript source):
* JS strings are modelled as `List Char` (`JSStr`); JS string methods
  (`trim`, `toLowerCase`, `startsWith`, `substring`, `indexOf`, `split`)
  are modelled by the `js...` functions below, following ECMAScript
  semantics on the ASCII inputs this program manipulates.
* JS numbers are modelled in two layers.  The parser layer (`JSNum`)
  models a double as an exact rational together with the IEEE special
  values `Infinity`, `-Infinity` and `NaN`; rounding of finite values to
  binary is not modelled, but overflow of string-to-number conversion to
  `Infinity` is (this is observable through `parseColor`).  The transform
  layer (`RExt`) models doubles as exact reals plus the same special
  values, with the ECMAScript rules for how `NaN` and infinities
  propagate through arithmetic, comparisons, `Math.min`/`Math.max`,
  `Math.round` and the transcendental functions; a finite sum or
  product of magnitude at least `2^1024 - 2^970` overflows to the
  signed infinity (the cutoff at which round-to-nearest leaves the
  double range), while the mantissa below the cutoff stays exact.  `undefined` read from
  an out-of-range array index behaves exactly like `NaN` in every
  numeric context this program uses, so it is modelled by `NaN`.
* Exceptions cannot arise in any of the modelled code (all the wrapped
  operations are total), so the `try`/`catch` blocks of the source are
  dead and the model is a total function, as the source comments assert.
-/

namespace ColorConverter

/-! ### JS string primitives -/

/-- JS strings, as sequences of characters. -/
abbrev JSStr := List Char

/-- Coerce a Lean string literal to the `JSStr` model. -/
def str (s : String) : JSStr := s.data

/-- The whitespace class used by JS `trim`, the regex `\s` and numeric
string conversion (ASCII whitespace plus no-break space; more exotic
Unicode space characters are not modelled). -/
def jsIsWs (c : Char) : Bool :=
  c == ' ' || c == '\t' || c == '\n' || c == '\r' || c == '\x0b' ||
    c == '\x0c' || c == ' '

/-- Model of `String.prototype.trim`: strip leading and trailing whitespace. -/
def jsTrim (s : JSStr) : JSStr :=
  ((s.dropWhile jsIsWs).reverse.dropWhile jsIsWs).reverse

/-- Model of `String.prototype.toLowerCase` (ASCII range, which is all this
program feeds it). -/
def jsToLower (s : JSStr) : JSStr := s.map Char.toLower

/-- Model of `String.prototype.startsWith`. -/
def jsStartsWith (s p : JSStr) : Bool := p.isPrefixOf s

/-- Model of `String.prototype.substring(start, stop)`: both indices are clamped
to `[0, length]` and swapped when `start > stop`. -/
def jsSubstring (s : JSStr) (start stop : Int) : JSStr :=
  let len : Int := s.length
  let a := min (max start 0) len
  let b := min (max stop 0) len
  (s.drop ((min a b).toNat)).take ((max a b).toNat - (min a b).toNat)

/-- Model of `String.prototype.indexOf` for a single character, `-1` when absent. -/
def jsIndexOf (s : JSStr) (c : Char) : Int :=
  match s.findIdx? (fun x => x == c) with
  | some i => (i : Int)
  | none => -1

/-- Model of `String.prototype.split(sep)` for a single-character separator:
`"" ↦ [""]`, empty fields are kept (`"1,2," ↦ ["1","2",""]`). -/
def jsSplitOn (sep : Char) (s : JSStr) : List JSStr :=
  s.foldr
    (fun c acc =>
      if c == sep then [] :: acc
      else
        match acc with
        | t :: ts => (c :: t) :: ts
        | [] => [[c]])
    [[]]

/-- Model of `String.prototype.split(/\s+/)`: split on maximal whitespace runs;
a leading (resp. trailing) run contributes a leading (resp. trailing)
empty field, and `"" ↦ [""]`. -/
def jsSplitWs : JSStr → List JSStr
  | [] => [[]]
  | c :: rest =>
    let r := jsSplitWs rest
    if jsIsWs c then
      match rest with
      | [] => [] :: r
      | c2 :: _ => if jsIsWs c2 then r else [] :: r
    else
      match r with
      | t :: ts => (c :: t) :: ts
      | [] => [[c]]

/-! ### JS numbers, parser layer -/

/-- A JS number as seen by the parser: an exact rational for the finite
doubles, plus the IEEE special values.  Rounding of finite values to
binary is not modelled (no claim depends on it); overflow of textual
conversion to `±Infinity` is. -/
inductive JSNum where
  | num (q : ℚ)
  | posInf
  | negInf
  | nan
deriving DecidableEq

/-- The `isNaN` test (on an actual number; the global `isNaN` coercion
from `undefined` is also `true`, which the `NaN`-for-`undefined`
convention reproduces). -/
def JSNum.isNaN : JSNum → Bool
  | .nan => true
  | _ => false

/-- Smallest magnitude at which IEEE-754 round-to-nearest sends a real
to `±Infinity`: `2^1024 - 2^970`. -/
def dblOverflow : ℚ := ((2 ^ 1024 - 2 ^ 970 : ℕ) : ℚ)

/-- Package an exact conversion result as a double: overflow becomes
`±Infinity`, other values are kept exactly. -/
def mkJSNum (q : ℚ) : JSNum :=
  if dblOverflow ≤ q then .posInf
  else if q ≤ -dblOverflow then .negInf
  else .num q

/-- Numeric value of a digit character in bases up to 16. -/
def charDigitVal (c : Char) : Option ℕ :=
  if '0' ≤ c ∧ c ≤ '9' then some (c.toNat - 48)
  else if 'a' ≤ c ∧ c ≤ 'f' then some (c.toNat - 87)
  else if 'A' ≤ c ∧ c ≤ 'F' then some (c.toNat - 55)
  else none

/-- Is `c` a digit of the given base? -/
def isBaseDigit (base : ℕ) (c : Char) : Bool :=
  match charDigitVal c with
  | some v => decide (v < base)
  | none => false

/-- Value of a digit string in the given base. -/
def digitsVal (base : ℕ) (l : List Char) : ℕ :=
  l.foldl (fun a c => a * base + ((charDigitVal c).getD 0)) 0

/-- The radix-prefixed integer forms of `Number(...)` (`0x…`, `0b…`,
`0o…`): the whole remainder must consist of digits of the base. -/
def parseRadix (base : ℕ) (l : List Char) : JSNum :=
  if !l.isEmpty && l.all (isBaseDigit base) then mkJSNum (digitsVal base l : ℚ)
  else .nan

/-- The exact rational `10 ^ e` (routed through `Nat.pow` so that it
evaluates fast). -/
def pow10 (e : ℤ) : ℚ :=
  if 0 ≤ e then ((10 ^ e.toNat : ℕ) : ℚ) else 1 / ((10 ^ (-e).toNat : ℕ) : ℚ)

/-- The unsigned decimal mantissa of a string numeric literal:
`Digits`, `Digits.Digits?`, or `.Digits`. -/
def parseMantissa (l : List Char) : Option ℚ :=
  match l.findIdx? (fun c => c == '.') with
  | none =>
    if !l.isEmpty && l.all (isBaseDigit 10) then some (digitsVal 10 l : ℚ)
    else none
  | some i =>
    let ip := l.take i
    let fp := l.drop (i + 1)
    if (!ip.isEmpty || !fp.isEmpty) && ip.all (isBaseDigit 10) &&
        fp.all (isBaseDigit 10) then
      some ((digitsVal 10 ip : ℚ) + (digitsVal 10 fp : ℚ) / pow10 (fp.length : ℤ))
    else none

/-- The exponent part of a string numeric literal (after `e`/`E`). -/
def parseExp (l : List Char) : Option ℤ :=
  match l with
  | '+' :: r =>
    if !r.isEmpty && r.all (isBaseDigit 10) then some (digitsVal 10 r : ℤ) else none
  | '-' :: r =>
    if !r.isEmpty && r.all (isBaseDigit 10) then some (-(digitsVal 10 r : ℤ)) else none
  | r =>
    if !r.isEmpty && r.all (isBaseDigit 10) then some (digitsVal 10 r : ℤ) else none

/-- An unsigned decimal literal with optional exponent. -/
def parseDecUnsigned (l : List Char) : Option ℚ :=
  match l.findIdx? (fun c => c == 'e' || c == 'E') with
  | none => parseMantissa l
  | some i =>
    match parseMantissa (l.take i), parseExp (l.drop (i + 1)) with
    | some m, some e => some (m * pow10 e)
    | _, _ => none

/-- A signed decimal literal, packaged as a double. -/
def parseDecSigned (l : List Char) : JSNum :=
  match l with
  | '+' :: r =>
    match parseDecUnsigned r with
    | some q => mkJSNum q
    | none => .nan
  | '-' :: r =>
    match parseDecUnsigned r with
    | some q => mkJSNum (-q)
    | none => .nan
  | r =>
    match parseDecUnsigned r with
    | some q => mkJSNum q
    | none => .nan

/-- Model of `Number(string)` (ECMAScript ToNumber on a string): trim, empty is
`0`, signed `Infinity`, radix-prefixed integers, else a signed decimal
literal, else `NaN`. -/
def jsStrToNum (s : JSStr) : JSNum :=
  let t := jsTrim s
  if t.isEmpty then .num 0
  else if t = str "Infinity" ∨ t = str "+Infinity" then .posInf
  else if t = str "-Infinity" then .negInf
  else
    match t with
    | '0' :: c :: r =>
      if c == 'x' || c == 'X' then parseRadix 16 r
      else if c == 'b' || c == 'B' then parseRadix 2 r
      else if c == 'o' || c == 'O' then parseRadix 8 r
      else parseDecSigned t
    | _ => parseDecSigned t

/-- Model of `parseInt(string, 16)`: skip leading whitespace, optional sign,
optional `0x`/`0X`, then the longest (possibly empty, giving `NaN`)
leading run of hexadecimal digits. -/
def jsParseInt16 (s : JSStr) : JSNum :=
  let t0 := s.dropWhile jsIsWs
  let signNeg :=
    match t0 with
    | '-' :: _ => true
    | _ => false
  let t1 :=
    match t0 with
    | '+' :: r => r
    | '-' :: r => r
    | r => r
  let t2 :=
    match t1 with
    | '0' :: 'x' :: r => r
    | '0' :: 'X' :: r => r
    | r => r
  let ds := t2.takeWhile (isBaseDigit 16)
  if ds.isEmpty then .nan
  else mkJSNum (if signNeg then -(digitsVal 16 ds : ℚ) else (digitsVal 16 ds : ℚ))

/-! ### The format parser (`parseColor`) -/

/-- The result of `parseColor`: a format tag and the numeric payload. -/
structure ParseResult where
  format : JSStr
  values : List JSNum
deriving DecidableEq

/-- The numeric tokens of the OKLCH branch: strip `oklch(` and the final
character, drop an optional `/ alpha` part, trim, split on whitespace
runs and convert each token with `Number`. -/
def oklchTokens (cleaned : JSStr) : List JSNum :=
  let parts := jsSplitOn '/' (jsSubstring cleaned 6 ((cleaned.length : Int) - 1))
  (jsSplitWs (jsTrim (parts.headD []))).map jsStrToNum

/-- The `oklch(` branch of `parseColor` (source lines 143–156). -/
def tryOklch (cleaned : JSStr) : Option ParseResult :=
  if jsStartsWith cleaned (str "oklch(") then
    let values := oklchTokens cleaned
    if values.length == 3 && values.all (fun v => !v.isNaN) then
      some ⟨str "oklch", values⟩
    else none
  else none

/-- The numeric tokens of the RGB branch: the text between the first
`(` and the final character, split on commas, each token trimmed and
converted with `Number`. -/
def rgbTokens (cleaned : JSStr) : List JSNum :=
  let inner := jsSubstring cleaned (jsIndexOf cleaned '(' + 1) ((cleaned.length : Int) - 1)
  (jsSplitOn ',' inner).map (fun v => jsStrToNum (jsTrim v))

/-- The `rgb` branch of `parseColor` (source lines 159–171). -/
def tryRgb (cleaned : JSStr) : Option ParseResult :=
  if jsStartsWith cleaned (str "rgb") then
    let values := rgbTokens cleaned
    if (values.length == 3 || values.length == 4) && values.all (fun v => !v.isNaN) then
      some ⟨(if values.length == 4 then str "rgba" else str "rgb"), values⟩
    else none
  else none

/-- The `#` branch of `parseColor` (source lines 174–189): expand a
3-character body by duplicating each character, require a 6-character
body, and read the three 2-character groups with `parseInt(·, 16)`. -/
def tryHex (cleaned : JSStr) : Option ParseResult :=
  if jsStartsWith cleaned (str "#") then
    let hex0 := jsSubstring cleaned 1 (cleaned.length : Int)
    let hex :=
      match hex0 with
      | [a, b, c] => [a, a, b, b, c, c]
      | l => l
    if hex.length == 6 then
      let r := jsParseInt16 (jsSubstring hex 0 2)
      let g := jsParseInt16 (jsSubstring hex 2 4)
      let b := jsParseInt16 (jsSubstring hex 4 6)
      if !r.isNaN && !g.isNaN && !b.isNaN then
        some ⟨str "hex", [r, g, b]⟩
      else none
    else none
  else none

/-- The fallback result of `parseColor`. -/
def unknownResult : ParseResult := ⟨str "unknown", []⟩

/-- Model of `parseColor` (source lines 139–193): trim and lower-case the input,
then try the OKLCH, RGB and hex branches in order. -/
def parseColor (input : JSStr) : ParseResult :=
  let cleaned := jsToLower (jsTrim input)
  match tryOklch cleaned with
  | some res => res
  | none =>
    match tryRgb cleaned with
    | some res => res
    | none =>
      match tryHex cleaned with
      | some res => res
      | none => unknownResult

/-! ### JS numbers, transform layer -/

/-- A JS number for the numeric pipelines: an exact real for each finite
double plus the special values.  Rounding and overflow of *arithmetic*
on finite values are not modelled (the numeric claims quantify over
exact reals, following the spec's "all-real arithmetic"); the ECMAScript
propagation rules for `NaN` and the infinities are.  Negative zero is
not modelled (nothing in this program observes it). -/
inductive RExt where
  | fin (x : ℝ)
  | pinf
  | ninf
  | nan

/-- The `isNaN` test at the transform layer. -/
def RExt.isNaN : RExt → Bool
  | .nan => true
  | _ => false

/-- View a parsed value as a transform-layer value (exact). -/
noncomputable def JSNum.toRExt : JSNum → RExt
  | .num q => .fin (q : ℝ)
  | .posInf => .pinf
  | .negInf => .ninf
  | .nan => .nan

/-- The overflow cutoff of the transform layer, as a real: the smallest
magnitude at which IEEE-754 round-to-nearest sends a result to
`±Infinity` (`2^1024 - 2^970`, the same cutoff as `dblOverflow` at the
parser layer). -/
noncomputable def dblMaxR : ℝ := 2 ^ 1024 - 2 ^ 970

open Classical in
/-- Package an exact finite arithmetic result as a double: a result of
magnitude at least `dblMaxR` overflows to the signed infinity, smaller
results are kept exactly. -/
noncomputable def finOv (x : ℝ) : RExt :=
  if x ≤ -dblMaxR then .ninf else if dblMaxR ≤ x then .pinf else .fin x

open Classical in
/-- IEEE addition: `NaN` is absorbing, `∞ + (-∞) = NaN`, and a finite sum
overflows to `±Infinity` at the `dblMaxR` cutoff. -/
noncomputable def radd : RExt → RExt → RExt
  | .nan, _ => .nan
  | _, .nan => .nan
  | .pinf, .ninf => .nan
  | .ninf, .pinf => .nan
  | .pinf, _ => .pinf
  | _, .pinf => .pinf
  | .ninf, _ => .ninf
  | _, .ninf => .ninf
  | .fin a, .fin b => finOv (a + b)

/-- IEEE negation. -/
noncomputable def rneg : RExt → RExt
  | .fin x => .fin (-x)
  | .pinf => .ninf
  | .ninf => .pinf
  | .nan => .nan

/-- IEEE subtraction (`a - b = a + (-b)` exactly). -/
noncomputable def rsub (a b : RExt) : RExt := radd a (rneg b)

open Classical in
/-- IEEE multiplication: `NaN` is absorbing, `∞ · 0 = NaN`, infinities
follow the sign rules, and a finite product overflows to `±Infinity`
at the `dblMaxR` cutoff. -/
noncomputable def rmul : RExt → RExt → RExt
  | .nan, _ => .nan
  | _, .nan => .nan
  | .pinf, .pinf => .pinf
  | .pinf, .ninf => .ninf
  | .ninf, .pinf => .ninf
  | .ninf, .ninf => .pinf
  | .pinf, .fin x => if 0 < x then .pinf else if x < 0 then .ninf else .nan
  | .fin x, .pinf => if 0 < x then .pinf else if x < 0 then .ninf else .nan
  | .ninf, .fin x => if 0 < x then .ninf else if x < 0 then .pinf else .nan
  | .fin x, .ninf => if 0 < x then .ninf else if x < 0 then .pinf else .nan
  | .fin a, .fin b => finOv (a * b)

open Classical in
/-- IEEE division: `NaN` absorbing, `∞/∞ = NaN`, finite over infinite is
zero, finite over zero is a signed infinity (`0/0 = NaN`; the sign that
negative zero would contribute is not modelled). -/
noncomputable def rdiv : RExt → RExt → RExt
  | .nan, _ => .nan
  | _, .nan => .nan
  | .pinf, .pinf => .nan
  | .pinf, .ninf => .nan
  | .ninf, .pinf => .nan
  | .ninf, .ninf => .nan
  | .pinf, .fin y => if 0 ≤ y then .pinf else .ninf
  | .ninf, .fin y => if 0 ≤ y then .ninf else .pinf
  | .fin _, .pinf => .fin 0
  | .fin _, .ninf => .fin 0
  | .fin x, .fin y =>
    if y = 0 then (if 0 < x then .pinf else if x < 0 then .ninf else .nan)
    else .fin (x / y)

open Classical in
/-- The JS `<` relational operator on numbers (`false` whenever an
operand is `NaN`). -/
noncomputable def rlt : RExt → RExt → Bool
  | .nan, _ => false
  | _, .nan => false
  | .fin x, .fin y => decide (x < y)
  | .fin _, .pinf => true
  | .fin _, .ninf => false
  | .pinf, _ => false
  | .ninf, .ninf => false
  | .ninf, _ => true

open Classical in
/-- The JS `<=` relational operator on numbers (`false` whenever an
operand is `NaN`). -/
noncomputable def rle : RExt → RExt → Bool
  | .nan, _ => false
  | _, .nan => false
  | .fin x, .fin y => decide (x ≤ y)
  | .fin _, .pinf => true
  | .fin _, .ninf => false
  | .pinf, .pinf => true
  | .pinf, _ => false
  | .ninf, _ => true

/-- Model of `Math.max` (of two arguments): `NaN` is absorbing. -/
noncomputable def rmaxJS : RExt → RExt → RExt
  | .nan, _ => .nan
  | _, .nan => .nan
  | .pinf, _ => .pinf
  | _, .pinf => .pinf
  | .ninf, b => b
  | a, .ninf => a
  | .fin a, .fin b => .fin (max a b)

/-- Model of `Math.min` (of two arguments): `NaN` is absorbing. -/
noncomputable def rminJS : RExt → RExt → RExt
  | .nan, _ => .nan
  | _, .nan => .nan
  | .ninf, _ => .ninf
  | _, .ninf => .ninf
  | .pinf, b => b
  | a, .pinf => a
  | .fin a, .fin b => .fin (min a b)

/-- Model of `Math.round`: round half toward positive infinity. -/
noncomputable def rround : RExt → RExt
  | .fin x => .fin ((⌊x + 1 / 2⌋ : ℤ) : ℝ)
  | .pinf => .pinf
  | .ninf => .ninf
  | .nan => .nan

/-- Model of `Math.cos` (`NaN` on the special values). -/
noncomputable def rcos : RExt → RExt
  | .fin x => .fin (Real.cos x)
  | _ => .nan

/-- Model of `Math.sin` (`NaN` on the special values). -/
noncomputable def rsin : RExt → RExt
  | .fin x => .fin (Real.sin x)
  | _ => .nan

open Classical in
/-- Model of `Math.sqrt`: `NaN` for negative arguments. -/
noncomputable def rsqrt : RExt → RExt
  | .fin x => if x < 0 then .nan else .fin (Real.sqrt x)
  | .pinf => .pinf
  | _ => .nan

open Classical in
/-- Real cube root: the odd extension of the positive-real root,
modelling `Math.cbrt` on finite inputs. -/
noncomputable def realCbrt (x : ℝ) : ℝ :=
  if x < 0 then -((-x) ^ ((1 : ℝ) / 3)) else x ^ ((1 : ℝ) / 3)

/-- Model of `Math.cbrt`. -/
noncomputable def rcbrt : RExt → RExt
  | .fin x => .fin (realCbrt x)
  | .pinf => .pinf
  | .ninf => .ninf
  | .nan => .nan

open Classical in
/-- Model of `Math.pow(b, y)` for a finite constant exponent `y` (both call sites
of the source pass the literal exponents `1/2.4` and `2.4`).  For a
negative finite base the result is `NaN`, which matches ECMAScript for
every non-integer exponent; the integer-exponent refinement is not
modelled since no call site can reach it. -/
noncomputable def rpowC (b : RExt) (y : ℝ) : RExt :=
  if y = 0 then .fin 1
  else
    match b with
    | .fin x =>
      if 0 < x then .fin (x ^ y)
      else if x = 0 then (if 0 < y then .fin 0 else .pinf)
      else .nan
    | .pinf => if 0 < y then .pinf else .fin 0
    | .ninf => if 0 < y then .pinf else .fin 0
    | .nan => .nan

/-- Model of `Math.atan2(y, x)` on finite arguments: the argument of the complex
number `x + y·i`, in `(-π, π]`, with `atan2(0, 0) = 0`. -/
noncomputable def atan2R (y x : ℝ) : ℝ := Complex.arg ⟨x, y⟩

open Classical in
/-- Model of `Math.atan2` including the ECMAScript special-value rules (the
variants that distinguish negative zero are not modelled). -/
noncomputable def ratan2 : RExt → RExt → RExt
  | .nan, _ => .nan
  | _, .nan => .nan
  | .fin y, .fin x => .fin (atan2R y x)
  | .pinf, .pinf => .fin (Real.pi / 4)
  | .pinf, .ninf => .fin (3 * Real.pi / 4)
  | .ninf, .pinf => .fin (-(Real.pi / 4))
  | .ninf, .ninf => .fin (-(3 * Real.pi / 4))
  | .pinf, .fin _ => .fin (Real.pi / 2)
  | .ninf, .fin _ => .fin (-(Real.pi / 2))
  | .fin _, .pinf => .fin 0
  | .fin y, .ninf => if 0 ≤ y then .fin Real.pi else .fin (-Real.pi)

/-! ### The numeric pipelines -/

/-- Model of `clamp(value, min, max)` (source lines 22–24).  The source declares
default bounds `0, 1`, but every call site passes both bounds
explicitly, so they are required arguments here. -/
noncomputable def clamp (value lo hi : RExt) : RExt :=
  rmaxJS lo (rminJS value hi)

/-- Model of `linearTosRGB` (source lines 27–35): clamp to `[0,1]`, then the
piecewise sRGB gamma-encoding curve. -/
noncomputable def linearTosRGB (c0 : RExt) : RExt :=
  let c := clamp c0 (.fin 0) (.fin 1)
  if rle c (.fin 0.0031308) then rmul (.fin 12.92) c
  else rsub (rmul (.fin 1.055) (rpowC c (1 / 2.4))) (.fin 0.055)

/-- Model of `sRGBtoLinear` (source lines 38–46): clamp to `[0,1]`, then the
piecewise sRGB gamma-decoding curve. -/
noncomputable def sRGBtoLinear (c0 : RExt) : RExt :=
  let c := clamp c0 (.fin 0) (.fin 1)
  if rle c (.fin 0.04045) then rdiv c (.fin 12.92)
  else rpowC (rdiv (radd c (.fin 0.055)) (.fin 1.055)) 2.4

/-- Model of `oklchToRgb` (source lines 54–96): OKLCH → OKLab → LMS → linear
sRGB → sRGB, scaled by 255, rounded, and clamped to `[0, 255]`.  The
guard `h === undefined || isNaN(h)` is modelled by the `isNaN` test
(an `undefined` hue is `NaN` in this model). -/
noncomputable def oklchToRgb (l c h0 : RExt) : RExt × RExt × RExt :=
  let h := if h0.isNaN then .fin 0 else h0
  let hRad := rmul h (.fin (Real.pi / 180))
  let lab_l := l
  let lab_a := rmul c (rcos hRad)
  let lab_b := rmul c (rsin hRad)
  let lms_l_ := radd (radd lab_l (rmul (.fin 0.3963377774) lab_a)) (rmul (.fin 0.2158037573) lab_b)
  let lms_m_ := rsub (rsub lab_l (rmul (.fin 0.1055613458) lab_a)) (rmul (.fin 0.0638541728) lab_b)
  let lms_s_ := rsub (rsub lab_l (rmul (.fin 0.0894841775) lab_a)) (rmul (.fin 1.2914855480) lab_b)
  let lms_l := rmul (rmul lms_l_ lms_l_) lms_l_
  let lms_m := rmul (rmul lms_m_ lms_m_) lms_m_
  let lms_s := rmul (rmul lms_s_ lms_s_) lms_s_
  let linear_r := radd (rsub (rmul (.fin 4.0767468522) lms_l) (rmul (.fin 3.3077115882) lms_m)) (rmul (.fin 0.2309647360) lms_s)
  let linear_g := rsub (radd (rmul (.fin (-1.2684380046)) lms_l) (rmul (.fin 2.6097574011) lms_m)) (rmul (.fin 0.3413193965) lms_s)
  let linear_b := radd (rsub (rmul (.fin (-0.0041960863)) lms_l) (rmul (.fin 0.7034186147) lms_m)) (rmul (.fin 1.7076147010) lms_s)
  let r_srgb := linearTosRGB linear_r
  let g_srgb := linearTosRGB linear_g
  let b_srgb := linearTosRGB linear_b
  let r := rround (rmul r_srgb (.fin 255))
  let g := rround (rmul g_srgb (.fin 255))
  let b := rround (rmul b_srgb (.fin 255))
  (clamp r (.fin 0) (.fin 255), clamp g (.fin 0) (.fin 255), clamp b (.fin 0) (.fin 255))

/-- Model of `rgbToOklch` (source lines 102–132): sRGB (0–255) → linear → LMS →
OKLab → OKLCH, with the hue normalized into `[0, 360)` by adding 360
when negative, and the lightness clamped to `[0, 1]`. -/
noncomputable def rgbToOklch (r g b : RExt) : RExt × RExt × RExt :=
  let r_linear := sRGBtoLinear (rdiv r (.fin 255))
  let g_linear := sRGBtoLinear (rdiv g (.fin 255))
  let b_linear := sRGBtoLinear (rdiv b (.fin 255))
  let lms_l := radd (radd (rmul (.fin 0.4121656120) r_linear) (rmul (.fin 0.5362752080) g_linear)) (rmul (.fin 0.0514575653) b_linear)
  let lms_m := radd (radd (rmul (.fin 0.2118561070) r_linear) (rmul (.fin 0.6807189584) g_linear)) (rmul (.fin 0.1074065790) b_linear)
  let lms_s := radd (radd (rmul (.fin 0.0883097947) r_linear) (rmul (.fin 0.2818474174) g_linear)) (rmul (.fin 0.6302613616) b_linear)
  let lms_l_ := rcbrt lms_l
  let lms_m_ := rcbrt lms_m
  let lms_s_ := rcbrt lms_s
  let lab_l := rsub (radd (rmul (.fin 0.2104542553) lms_l_) (rmul (.fin 0.7936177850) lms_m_)) (rmul (.fin 0.0040720468) lms_s_)
  let lab_a := radd (rsub (rmul (.fin 1.9779984951) lms_l_) (rmul (.fin 2.4285922050) lms_m_)) (rmul (.fin 0.4505937099) lms_s_)
  let lab_b := rsub (radd (rmul (.fin 0.0259040371) lms_l_) (rmul (.fin 0.7827717662) lms_m_)) (rmul (.fin 0.8086757660) lms_s_)
  let c := rsqrt (radd (rmul lab_a lab_a) (rmul lab_b lab_b))
  let h1 := rmul (ratan2 lab_b lab_a) (.fin (180 / Real.pi))
  let h := if rlt h1 (.fin 0) then radd h1 (.fin 360) else h1
  (clamp lab_l (.fin 0) (.fin 1), c, h)

/-! ### Number-to-string conversion and the conversion orchestrator -/

/-- Digits of `n` in the given base, most significant first (fuel-based
tail recursion; the fuel `n + 1` always suffices). -/
def natDigitsAux (base : ℕ) : ℕ → ℕ → List Char → List Char
  | 0, _, acc => acc
  | _ + 1, 0, acc => acc
  | fuel + 1, n + 1, acc =>
    natDigitsAux base fuel ((n + 1) / base) (Nat.digitChar ((n + 1) % base) :: acc)

/-- Digits of `n` in the given base (`Nat.digitChar` yields the lowercase
digits JS number formatting uses). -/
def natDigits (base n : ℕ) : List Char :=
  if n = 0 then ['0'] else natDigitsAux base (n + 1) n []

/-- Model of `String.prototype.padStart(2, "0")`. -/
def padStart2 (s : JSStr) : JSStr :=
  if s.length < 2 then List.replicate (2 - s.length) '0' ++ s else s

/-- Drop trailing `'0'` characters. -/
def trimZeros (l : List Char) : List Char :=
  (l.reverse.dropWhile (fun c => c == '0')).reverse

/-- The first `fuel` fractional digits (in the given base) of a real
`y ∈ [0, 1)`, most significant first. -/
noncomputable def realFracDigitsAux (base : ℕ) : ℕ → ℝ → List Char
  | 0, _ => []
  | fuel + 1, y =>
    Nat.digitChar ((⌊y * (base : ℝ)⌋).toNat % base) ::
      realFracDigitsAux base fuel (y * (base : ℝ) - ((⌊y * (base : ℝ)⌋ : ℤ) : ℝ))

/-- Positional representation of a nonnegative real in the given base:
integer digits, then the exact fractional expansion with trailing zeros
removed (truncated beyond 1100 fractional digits — in the ideal-number
model every value a JS double can take terminates well before that). -/
noncomputable def realToStrNonneg (base : ℕ) (x : ℝ) : JSStr :=
  let ds := trimZeros (realFracDigitsAux base 1100 (x - ((⌊x⌋ : ℤ) : ℝ)))
  natDigits base (⌊x⌋.toNat) ++ (if ds.isEmpty then [] else '.' :: ds)

open Classical in
/-- Model of `Number.prototype.toString(radix)` in the ideal-number model (for
radix 10 this is also the string interpolation `${n}` of a number):
`NaN`/`Infinity` by name, a sign, then the positional representation of
the exact value.  (JS prints the shortest round-tripping decimal and
switches to exponent notation beyond `1e21`; on the exact values of
this model the former coincides with the exact expansion, and no number
this program prints can reach the latter.) -/
noncomputable def rextToStrB (base : ℕ) : RExt → JSStr
  | .fin x => if x < 0 then '-' :: realToStrNonneg base (-x) else realToStrNonneg base x
  | .pinf => str "Infinity"
  | .ninf => str "-Infinity"
  | .nan => str "NaN"

/-- Helper for `toFixed` on a nonnegative real: round `x·10^digs` to an
integer, ties away from zero, and insert the decimal point before the
last `digs` digits (this program only calls `toFixed` with `digs > 0`). -/
noncomputable def toFixedNonneg (digs : ℕ) (x : ℝ) : JSStr :=
  let n := (⌊x * ((10 ^ digs : ℕ) : ℝ) + 1 / 2⌋).toNat
  let ds := natDigits 10 n
  let ds := if ds.length < digs + 1 then List.replicate (digs + 1 - ds.length) '0' ++ ds else ds
  if digs = 0 then ds else ds.take (ds.length - digs) ++ '.' :: ds.drop (ds.length - digs)

open Classical in
/-- Model of `Number.prototype.toFixed(digs)`. -/
noncomputable def jsToFixed (digs : ℕ) : RExt → JSStr
  | .fin x => if x < 0 then '-' :: toFixedNonneg digs (-x) else toFixedNonneg digs x
  | .pinf => str "Infinity"
  | .ninf => str "-Infinity"
  | .nan => str "NaN"

/-- One formatted conversion result. -/
structure ConversionEntry where
  format : JSStr
  value : JSStr

/-- The template literal `rgb(${r}, ${g}, ${b})`. -/
noncomputable def rgbTemplate (r g b : RExt) : JSStr :=
  str "rgb(" ++ rextToStrB 10 r ++ str ", " ++ rextToStrB 10 g ++ str ", " ++
    rextToStrB 10 b ++ str ")"

/-- The template `"#" + components.map(x => x.toString(16).padStart(2, "0")).join("")`. -/
noncomputable def hexTemplate (r g b : RExt) : JSStr :=
  '#' :: (padStart2 (rextToStrB 16 r) ++ padStart2 (rextToStrB 16 g) ++
    padStart2 (rextToStrB 16 b))

/-- The template `oklch(${L.toFixed(4)} ${C.toFixed(4)} ${H.toFixed(2)})`. -/
noncomputable def oklchTemplate (t : RExt × RExt × RExt) : JSStr :=
  str "oklch(" ++ jsToFixed 4 t.1 ++ str " " ++ jsToFixed 4 t.2.1 ++ str " " ++
    jsToFixed 2 t.2.2 ++ str ")"

/-- Model of `convertColor` (source lines 238–283): guard against empty or
`NaN`-containing payloads, then dispatch on the format tag.  Reading
`values[i]` beyond the end of the array gives `undefined`, which
behaves as `NaN` in every numeric position it is used in, so it is
modelled by `NaN`.  The source's `try`/`catch` is unreachable (every
wrapped operation is total) and has no counterpart in the model. -/
noncomputable def convertColor (format : JSStr) (values : List JSNum) : List ConversionEntry :=
  if values.length == 0 || values.any (fun v => v.isNaN) then []
  else if format = str "oklch" then
    let rgb := oklchToRgb (values.getD 0 .nan).toRExt (values.getD 1 .nan).toRExt
      (values.getD 2 .nan).toRExt
    [⟨str "rgb", rgbTemplate rgb.1 rgb.2.1 rgb.2.2⟩,
     ⟨str "hex", hexTemplate rgb.1 rgb.2.1 rgb.2.2⟩]
  else if format = str "rgb" ∨ format = str "rgba" then
    let r_rgb := clamp (values.getD 0 .nan).toRExt (.fin 0) (.fin 255)
    let g_rgb := clamp (values.getD 1 .nan).toRExt (.fin 0) (.fin 255)
    let b_rgb := clamp (values.getD 2 .nan).toRExt (.fin 0) (.fin 255)
    let oklch := rgbToOklch r_rgb g_rgb b_rgb
    [⟨str "oklch", oklchTemplate oklch⟩,
     ⟨str "hex", hexTemplate (rround r_rgb) (rround g_rgb) (rround b_rgb)⟩]
  else if format = str "hex" then
    let r_hex := (values.getD 0 .nan).toRExt
    let g_hex := (values.getD 1 .nan).toRExt
    let b_hex := (values.getD 2 .nan).toRExt
    let oklch := rgbToOklch r_hex g_hex b_hex
    [⟨str "oklch", oklchTemplate oklch⟩,
     ⟨str "rgb", rgbTemplate r_hex g_hex b_hex⟩]
  else []

/-- The fixed output-format precedence that the specification asserts
for each input format (spec §3, "ConversionEntry").  This is the
specification side of claim C1, to be compared with what `convertColor`
actually emits. -/
def expectedFormats (f : JSStr) : List JSStr :=
  if f = str "oklch" then [str "rgb", str "hex"]
  else if f = str "rgb" ∨ f = str "rgba" then [str "oklch", str "hex"]
  else if f = str "hex" then [str "oklch", str "rgb"]
  else []

/-- An output channel of `oklchToRgb` as claim C5 must describe it: either
`NaN` (when double overflow poisoned the pipeline) or a whole number in
`[0, 255]`. -/
def byteOrNaN (e : RExt) : Prop :=
  e = RExt.nan ∨ ∃ n : ℤ, e = RExt.fin (n : ℝ) ∧ 0 ≤ n ∧ n ≤ 255

/-- A transform-layer value that is finite with magnitude at most `B`;
the interval bookkeeping that discharges the overflow side conditions
of `radd` and `rmul` along the `rgbToOklch` pipeline. -/
def finB (B : ℝ) (e : RExt) : Prop :=
  ∃ x : ℝ, e = RExt.fin x ∧ |x| ≤ B

/-! ### Parser structure lemmas -/

theorem tryOklch_eq_some {cl : JSStr} {p : ParseResult} (h : tryOklch cl = some p) :
    p.format = str "oklch" ∧ p.values.length = 3 ∧
      p.values.all (fun v => !v.isNaN) = true := by
  simp only [tryOklch] at h
  split at h
  · split at h
    · rename_i hcond
      simp only [Option.some.injEq] at h
      subst h
      simp only [Bool.and_eq_true, beq_iff_eq] at hcond
      exact ⟨rfl, hcond.1, hcond.2⟩
    · exact absurd h (by simp)
  · exact absurd h (by simp)

theorem tryRgb_eq_some {cl : JSStr} {p : ParseResult} (h : tryRgb cl = some p) :
    (p.format = str "rgb" ∨ p.format = str "rgba") ∧
      (p.values.length = 3 ∨ p.values.length = 4) ∧
      p.values.all (fun v => !v.isNaN) = true := by
  simp only [tryRgb] at h
  split at h
  · split at h
    · rename_i hcond
      simp only [Option.some.injEq] at h
      subst h
      simp only [Bool.and_eq_true, Bool.or_eq_true, beq_iff_eq] at hcond
      refine ⟨?_, hcond.1, hcond.2⟩
      by_cases h4 : (rgbTokens cl).length == 4 <;> simp [h4]
    · exact absurd h (by simp)
  · exact absurd h (by simp)

theorem tryHex_eq_some {cl : JSStr} {p : ParseResult} (h : tryHex cl = some p) :
    p.format = str "hex" ∧ p.values.length = 3 ∧
      p.values.all (fun v => !v.isNaN) = true := by
  simp only [tryHex] at h
  split at h
  · split at h
    · split at h
      · rename_i hcond
        simp only [Option.some.injEq] at h
        subst h
        simp only [Bool.and_eq_true, Bool.not_eq_true'] at hcond
        refine ⟨rfl, rfl, ?_⟩
        simp [List.all, hcond.1.1, hcond.1.2, hcond.2]
      · exact absurd h (by simp)
    · exact absurd h (by simp)
  · exact absurd h (by simp)

/-- Case analysis on `parseColor`: the result is the unknown result, or
comes from one of the three branches with the invariants that branch
enforces. -/
theorem parseColor_spec (s : JSStr) :
    parseColor s = unknownResult ∨
      ((parseColor s).format = str "oklch" ∧ (parseColor s).values.length = 3 ∧
        (parseColor s).values.all (fun v => !v.isNaN) = true) ∨
      (((parseColor s).format = str "rgb" ∨ (parseColor s).format = str "rgba") ∧
        ((parseColor s).values.length = 3 ∨ (parseColor s).values.length = 4) ∧
        (parseColor s).values.all (fun v => !v.isNaN) = true) ∨
      ((parseColor s).format = str "hex" ∧ (parseColor s).values.length = 3 ∧
        (parseColor s).values.all (fun v => !v.isNaN) = true) := by
  simp only [parseColor]
  cases ho : tryOklch (jsToLower (jsTrim s)) with
  | some p => exact Or.inr (Or.inl (tryOklch_eq_some ho))
  | none =>
    cases hr : tryRgb (jsToLower (jsTrim s)) with
    | some p => exact Or.inr (Or.inr (Or.inl (tryRgb_eq_some hr)))
    | none =>
      cases hh : tryHex (jsToLower (jsTrim s)) with
      | some p => exact Or.inr (Or.inr (Or.inr (tryHex_eq_some hh)))
      | none => exact Or.inl rfl

/-! ### Claim theorems: parser claims with concrete inputs -/

/-- Claim C9: `parseColor` is total — every input yields one of the five
format tags (in the model it is a total function by construction) — and
the three malformed inputs named in the claim each yield exactly the
unknown result with empty values. -/
theorem claim9_parse_total :
    (∀ s : JSStr, (parseColor s).format ∈
        [str "oklch", str "rgb", str "rgba", str "hex", str "unknown"]) ∧
      parseColor (str "not a color") = ⟨str "unknown", []⟩ ∧
      parseColor (str "oklch(1 2)") = ⟨str "unknown", []⟩ ∧
      parseColor (str "rgb(1,2,3,4,5)") = ⟨str "unknown", []⟩ := by
  refine ⟨fun s => ?_, ?_, ?_, ?_⟩
  · rcases parseColor_spec s with h | h | h | h
    · rw [h]; simp [unknownResult]
    · simp [h.1]
    · rcases h.1 with h1 | h1 <;> simp [h1]
    · simp [h.1]
  · with_unfolding_all decide
  · with_unfolding_all decide
  · with_unfolding_all decide

/-- Claim C10: the hex branch accepts bodies that are not pure
hexadecimal, because `parseInt(·, 16)` reads the longest hexadecimal
prefix of each 2-character group: `"#1g2g3g"` parses as hex `(1, 2, 3)`
rather than falling through to the unknown result. -/
theorem claim10_hex_prefix_groups :
    parseColor (str "#1g2g3g") = ⟨str "hex", [.num 1, .num 2, .num 3]⟩ ∧
      parseColor (str "#1g2g3g") ≠ unknownResult := by
  constructor
  · with_unfolding_all decide
  · with_unfolding_all decide

/-- Counterexample to claim C2: the token `"1e999"` converts to
`Infinity`, which is not finite, yet `parseColor` accepts
`"oklch(1e999 0 0)"` (the source only rejects `NaN` tokens), instead of
falling through to the unknown result as the claim requires. -/
theorem claim2_counterexample :
    jsStrToNum (str "1e999") = JSNum.posInf ∧
      parseColor (str "oklch(1e999 0 0)") =
        ⟨str "oklch", [.posInf, .num 0, .num 0]⟩ := by
  constructor
  · with_unfolding_all decide
  · with_unfolding_all decide

/-- Counterexample to claim C4: in `"rgb(1,2,)"` the last comma field is
empty, which is not a numeric token, yet `Number("")` is `0`, so
`parseColor` returns an rgb match `(1, 2, 0)` instead of no match. -/
theorem claim4_counterexample :
    parseColor (str "rgb(1,2,)") = ⟨str "rgb", [.num 1, .num 2, .num 0]⟩ ∧
      parseColor (str "rgb(1,2,)") ≠ unknownResult := by
  constructor
  · with_unfolding_all decide
  · with_unfolding_all decide

/-- Counterexample to claim C3: `convertColor "oklch" [Infinity, 0, 0]`
does not return the empty sequence — the guard only filters `NaN`, so
the oklch branch still emits its two entries. -/
theorem claim3_counterexample :
    convertColor (str "oklch") [.posInf, .num 0, .num 0] ≠ [] ∧
      (convertColor (str "oklch") [.posInf, .num 0, .num 0]).map
          ConversionEntry.format = [str "rgb", str "hex"] := by
  have hg : (([JSNum.posInf, .num 0, .num 0].length == 0) ||
      [JSNum.posInf, .num 0, .num 0].any (fun v => v.isNaN)) = false := by decide
  constructor <;>
    simp [convertColor, hg, JSNum.isNaN]

/-! ### Branch disambiguation and the amended parser claims -/

theorem jsStartsWith_cons (c : Char) (t : JSStr) (d : Char) (p : JSStr) :
    jsStartsWith (c :: t) (d :: p) = (d == c && jsStartsWith t p) := rfl

theorem head_of_startsWith {cl : JSStr} {d : Char} {p : JSStr}
    (h : jsStartsWith cl (d :: p) = true) : ∃ t, cl = d :: t := by
  cases cl with
  | nil => simp [jsStartsWith, List.isPrefixOf] at h
  | cons c t =>
    rw [jsStartsWith_cons] at h
    simp only [Bool.and_eq_true, beq_iff_eq] at h
    exact ⟨t, by rw [h.1]⟩

theorem tryOklch_char (cl : JSStr) (h : jsStartsWith cl (str "oklch(") = true) :
    tryOklch cl =
      if ((oklchTokens cl).length == 3 && (oklchTokens cl).all fun v => !v.isNaN) = true
      then some ⟨str "oklch", oklchTokens cl⟩ else none := by
  simp only [tryOklch, if_pos h]

theorem tryRgb_char (cl : JSStr) (h : jsStartsWith cl (str "rgb") = true) :
    tryRgb cl =
      if (((rgbTokens cl).length == 3 || (rgbTokens cl).length == 4) &&
          (rgbTokens cl).all fun v => !v.isNaN) = true
      then some ⟨(if (rgbTokens cl).length == 4 then str "rgba" else str "rgb"), rgbTokens cl⟩
      else none := by
  simp only [tryRgb, if_pos h]

theorem tryOklch_none (cl : JSStr) (h : jsStartsWith cl (str "oklch(") = false) :
    tryOklch cl = none := by
  simp [tryOklch, h]

theorem tryRgb_none (cl : JSStr) (h : jsStartsWith cl (str "rgb") = false) :
    tryRgb cl = none := by
  simp [tryRgb, h]

theorem tryHex_none (cl : JSStr) (h : jsStartsWith cl (str "#") = false) :
    tryHex cl = none := by
  simp [tryHex, h]

/-- Claim C2 (amended): for every input whose trimmed, lower-cased form
starts with `"oklch("`, the parse yields format `"oklch"` with the
converted tokens iff the payload splits into exactly 3 tokens none of
which converts to `NaN` — and otherwise falls through to the unknown
result.  (Contrary to the original claim, finiteness is *not* required:
a token converting to `Infinity`, such as `"1e999"`, is accepted; see
the counterexample.) -/
theorem claim2_oklch_parse (s : JSStr)
    (h : jsStartsWith (jsToLower (jsTrim s)) (str "oklch(") = true) :
    parseColor s =
      if (oklchTokens (jsToLower (jsTrim s))).length = 3 ∧
          (oklchTokens (jsToLower (jsTrim s))).all (fun v => !v.isNaN) = true then
        ⟨str "oklch", oklchTokens (jsToLower (jsTrim s))⟩
      else ⟨str "unknown", []⟩ := by
  obtain ⟨t, ht⟩ := head_of_startsWith h
  have hrgb : jsStartsWith (jsToLower (jsTrim s)) (str "rgb") = false := by rw [ht]; rfl
  have hhex : jsStartsWith (jsToLower (jsTrim s)) (str "#") = false := by rw [ht]; rfl
  by_cases hc : (oklchTokens (jsToLower (jsTrim s))).length = 3 ∧
      (oklchTokens (jsToLower (jsTrim s))).all (fun v => !v.isNaN) = true
  · have hb : ((oklchTokens (jsToLower (jsTrim s))).length == 3 &&
        (oklchTokens (jsToLower (jsTrim s))).all fun v => !v.isNaN) = true := by
      simp [hc.1, hc.2]
    simp only [parseColor, tryOklch_char _ h, if_pos hb, if_pos hc]
  · have hb : ¬(((oklchTokens (jsToLower (jsTrim s))).length == 3 &&
        (oklchTokens (jsToLower (jsTrim s))).all fun v => !v.isNaN) = true) := by
      intro hbt
      simp only [Bool.and_eq_true, beq_iff_eq] at hbt
      exact hc hbt
    simp only [parseColor, tryOklch_char _ h, if_neg hb, if_neg hc,
      tryRgb_none _ hrgb, tryHex_none _ hhex]
    rfl

/-- Witness for the amended claim C2 at `"oklch(1 2 3)"`. -/
theorem claim2_oklch_parse_witness :
    parseColor (str "oklch(1 2 3)") =
      if (oklchTokens (jsToLower (jsTrim (str "oklch(1 2 3)")))).length = 3 ∧
          (oklchTokens (jsToLower (jsTrim (str "oklch(1 2 3)")))).all
            (fun v => !v.isNaN) = true then
        ⟨str "oklch", oklchTokens (jsToLower (jsTrim (str "oklch(1 2 3)")))⟩
      else ⟨str "unknown", []⟩ :=
  claim2_oklch_parse (str "oklch(1 2 3)") (by decide)

/-- Claim C4 (amended): for every input whose trimmed, lower-cased form
starts with `"rgb"`, the parse yields a match (tag `"rgb"` for 3 comma
fields, `"rgba"` for 4) iff no field converts to `NaN` under `Number`
— where an empty or whitespace-only field converts to `0`, not to
`NaN`, contrary to the original claim (see the counterexample) — and
any other arity or a `NaN` field falls through to the unknown result. -/
theorem claim4_rgb_parse (s : JSStr)
    (h : jsStartsWith (jsToLower (jsTrim s)) (str "rgb") = true) :
    parseColor s =
      if ((rgbTokens (jsToLower (jsTrim s))).length = 3 ∨
            (rgbTokens (jsToLower (jsTrim s))).length = 4) ∧
          (rgbTokens (jsToLower (jsTrim s))).all (fun v => !v.isNaN) = true then
        ⟨(if (rgbTokens (jsToLower (jsTrim s))).length = 4 then str "rgba" else str "rgb"),
          rgbTokens (jsToLower (jsTrim s))⟩
      else ⟨str "unknown", []⟩ := by
  obtain ⟨t, ht⟩ := head_of_startsWith h
  have hok : jsStartsWith (jsToLower (jsTrim s)) (str "oklch(") = false := by rw [ht]; rfl
  have hhex : jsStartsWith (jsToLower (jsTrim s)) (str "#") = false := by rw [ht]; rfl
  by_cases hc : ((rgbTokens (jsToLower (jsTrim s))).length = 3 ∨
      (rgbTokens (jsToLower (jsTrim s))).length = 4) ∧
      (rgbTokens (jsToLower (jsTrim s))).all (fun v => !v.isNaN) = true
  · have hb : (((rgbTokens (jsToLower (jsTrim s))).length == 3 ||
        (rgbTokens (jsToLower (jsTrim s))).length == 4) &&
        (rgbTokens (jsToLower (jsTrim s))).all fun v => !v.isNaN) = true := by
      rcases hc.1 with hlen | hlen <;> simp [hlen, hc.2]
    by_cases h4 : (rgbTokens (jsToLower (jsTrim s))).length = 4
    · have h4b : ((rgbTokens (jsToLower (jsTrim s))).length == 4) = true := by
        simp [h4]
      simp only [parseColor, tryOklch_none _ hok, tryRgb_char _ h, if_pos hb,
        if_pos hc, if_pos h4, if_pos h4b]
    · have h4b : ¬(((rgbTokens (jsToLower (jsTrim s))).length == 4) = true) := by
        simp [h4]
      simp only [parseColor, tryOklch_none _ hok, tryRgb_char _ h, if_pos hb,
        if_pos hc, if_neg h4, if_neg h4b]
  · have hb : ¬((((rgbTokens (jsToLower (jsTrim s))).length == 3 ||
        (rgbTokens (jsToLower (jsTrim s))).length == 4) &&
        (rgbTokens (jsToLower (jsTrim s))).all fun v => !v.isNaN) = true) := by
      intro hbt
      simp only [Bool.and_eq_true, Bool.or_eq_true, beq_iff_eq] at hbt
      exact hc hbt
    simp only [parseColor, tryOklch_none _ hok, tryRgb_char _ h, if_neg hb,
      if_neg hc, tryHex_none _ hhex]
    rfl

/-- Witness for the amended claim C4 at `"rgb(4,5,6)"`. -/
theorem claim4_rgb_parse_witness :
    parseColor (str "rgb(4,5,6)") =
      if ((rgbTokens (jsToLower (jsTrim (str "rgb(4,5,6)")))).length = 3 ∨
            (rgbTokens (jsToLower (jsTrim (str "rgb(4,5,6)")))).length = 4) ∧
          (rgbTokens (jsToLower (jsTrim (str "rgb(4,5,6)")))).all
            (fun v => !v.isNaN) = true then
        ⟨(if (rgbTokens (jsToLower (jsTrim (str "rgb(4,5,6)")))).length = 4 then str "rgba"
            else str "rgb"),
          rgbTokens (jsToLower (jsTrim (str "rgb(4,5,6)")))⟩
      else ⟨str "unknown", []⟩ :=
  claim4_rgb_parse (str "rgb(4,5,6)") (by decide)

/-! ### The orchestrator claims -/

theorem guard_false_of {vs : List JSNum} (hl : vs.length ≠ 0)
    (ha : vs.all (fun v => !v.isNaN) = true) :
    ((vs.length == 0) || vs.any fun v => v.isNaN) = false := by
  simp only [Bool.or_eq_false_iff]
  refine ⟨by simpa using hl, ?_⟩
  rw [← Bool.not_eq_true, List.any_eq_true]
  simp only [List.all_eq_true, Bool.not_eq_true'] at ha
  push_neg
  intro v hv
  simp [ha v hv]

/-- Claim C3 (amended): `convertColor` returns the empty sequence
whenever the tag is not one of oklch/rgb/rgba/hex, or the values are
empty, or some value is `NaN`.  (Contrary to the original claim, a
non-`NaN` non-finite value such as `Infinity` is *not* filtered; see
the counterexample.) -/
theorem claim3_convert_empty (f : JSStr) (vs : List JSNum)
    (h : f ∉ [str "oklch", str "rgb", str "rgba", str "hex"] ∨ vs = [] ∨
      vs.any (fun v => v.isNaN) = true) :
    convertColor f vs = [] := by
  rcases h with hf | hv | hn
  · simp only [List.mem_cons, List.not_mem_nil, or_false, not_or] at hf
    by_cases hg : ((vs.length == 0) || vs.any fun v => v.isNaN) = true
    · simp [convertColor, hg]
    · simp [convertColor, hg, hf.1, hf.2.1, hf.2.2.1, hf.2.2.2]
  · subst hv; simp [convertColor]
  · simp [convertColor, hn]

/-- Witness for the amended claim C3 at an unrecognized tag. -/
theorem claim3_convert_empty_witness :
    convertColor (str "foo") [JSNum.num 1] = [] :=
  claim3_convert_empty (str "foo") [JSNum.num 1] (Or.inl (by decide))

/-- Claim C1: for every successfully parsed input, `convertColor`
returns exactly the non-source formats in the fixed order the spec
gives — `[rgb, hex]` for oklch input, `[oklch, hex]` for rgb and rgba
input, `[oklch, rgb]` for hex input — and the input's own format never
appears among the returned entries. -/
theorem claim1_convert_order (s : JSStr)
    (hp : (parseColor s).format ≠ str "unknown") :
    ((convertColor (parseColor s).format (parseColor s).values).map
        ConversionEntry.format = expectedFormats (parseColor s).format) ∧
      (parseColor s).format ∉
        (convertColor (parseColor s).format (parseColor s).values).map
          ConversionEntry.format := by
  rcases parseColor_spec s with h | ⟨hf, hl, ha⟩ | ⟨hf, hl, ha⟩ | ⟨hf, hl, ha⟩
  · rw [h] at hp; simp [unknownResult] at hp
  · have hgp : ¬((((parseColor s).values.length == 0) ||
        (parseColor s).values.any fun v => v.isNaN) = true) := by
      simp [guard_false_of (by omega : (parseColor s).values.length ≠ 0) ha]
    rw [hf]
    have hmap : (convertColor (str "oklch") (parseColor s).values).map
        ConversionEntry.format = expectedFormats (str "oklch") := by
      rw [convertColor, if_neg hgp, if_pos rfl]
      simp [expectedFormats]
    exact ⟨hmap, by rw [hmap]; decide⟩
  · have hgp : ¬((((parseColor s).values.length == 0) ||
        (parseColor s).values.any fun v => v.isNaN) = true) := by
      simp [guard_false_of (by omega : (parseColor s).values.length ≠ 0) ha]
    have d1 : ¬(str "rgb" = str "oklch") := by decide
    have d2 : ¬(str "rgba" = str "oklch") := by decide
    rcases hf with hf | hf <;> rw [hf]
    · have hmap : (convertColor (str "rgb") (parseColor s).values).map
          ConversionEntry.format = expectedFormats (str "rgb") := by
        rw [convertColor, if_neg hgp, if_neg d1,
          if_pos (Or.inl rfl : str "rgb" = str "rgb" ∨ str "rgb" = str "rgba")]
        simp [expectedFormats, d1]
      exact ⟨hmap, by rw [hmap]; decide⟩
    · have hmap : (convertColor (str "rgba") (parseColor s).values).map
          ConversionEntry.format = expectedFormats (str "rgba") := by
        rw [convertColor, if_neg hgp, if_neg d2,
          if_pos (Or.inr rfl : str "rgba" = str "rgb" ∨ str "rgba" = str "rgba")]
        simp [expectedFormats, d2]
      exact ⟨hmap, by rw [hmap]; decide⟩
  · have hgp : ¬((((parseColor s).values.length == 0) ||
        (parseColor s).values.any fun v => v.isNaN) = true) := by
      simp [guard_false_of (by omega : (parseColor s).values.length ≠ 0) ha]
    have d1 : ¬(str "hex" = str "oklch") := by decide
    have d2 : ¬(str "hex" = str "rgb" ∨ str "hex" = str "rgba") := by decide
    rw [hf]
    have hmap : (convertColor (str "hex") (parseColor s).values).map
        ConversionEntry.format = expectedFormats (str "hex") := by
      rw [convertColor, if_neg hgp, if_neg d1, if_neg d2, if_pos rfl]
      simp [expectedFormats, d1, d2]
    exact ⟨hmap, by rw [hmap]; decide⟩

/-- Witness for claim C1 at `"rgb(1, 2, 3)"`. -/
theorem claim1_convert_order_witness :
    ((convertColor (parseColor (str "rgb(1, 2, 3)")).format
        (parseColor (str "rgb(1, 2, 3)")).values).map ConversionEntry.format =
        expectedFormats (parseColor (str "rgb(1, 2, 3)")).format) ∧
      (parseColor (str "rgb(1, 2, 3)")).format ∉
        (convertColor (parseColor (str "rgb(1, 2, 3)")).format
          (parseColor (str "rgb(1, 2, 3)")).values).map ConversionEntry.format :=
  claim1_convert_order (str "rgb(1, 2, 3)") (by with_unfolding_all decide)

/-! ### Finite-value computation lemmas for the transform layer -/

theorem dblMaxR_pos : (0 : ℝ) < dblMaxR := by
  unfold dblMaxR
  norm_num

theorem big_lt_dblMaxR {x : ℝ} (h : |x| ≤ 10 ^ 9) : |x| < dblMaxR := by
  have hb : (10 ^ 9 : ℝ) < dblMaxR := by
    unfold dblMaxR
    norm_num
  linarith

theorem small_abs {x : ℝ} (h1 : -(10 ^ 9) ≤ x) (h2 : x ≤ 10 ^ 9) : |x| < dblMaxR :=
  big_lt_dblMaxR (abs_le.mpr ⟨h1, h2⟩)

theorem finOv_fin {x : ℝ} (h : |x| < dblMaxR) : finOv x = .fin x := by
  obtain ⟨h1, h2⟩ := abs_lt.mp h
  unfold finOv
  rw [if_neg (by linarith), if_neg (by linarith)]

theorem finOv_pinf {x : ℝ} (h : dblMaxR ≤ x) : finOv x = .pinf := by
  have hp := dblMaxR_pos
  unfold finOv
  rw [if_neg (by linarith), if_pos h]

theorem radd_fin (a b : ℝ) (h : |a + b| < dblMaxR) :
    radd (.fin a) (.fin b) = .fin (a + b) := by
  show finOv (a + b) = .fin (a + b)
  exact finOv_fin h

theorem rneg_fin (a : ℝ) : rneg (.fin a) = .fin (-a) := rfl

theorem rsub_fin (a b : ℝ) (h : |a - b| < dblMaxR) :
    rsub (.fin a) (.fin b) = .fin (a - b) := by
  rw [sub_eq_add_neg] at h ⊢
  show radd (.fin a) (.fin (-b)) = .fin (a + -b)
  exact radd_fin a (-b) h

theorem rmul_fin (a b : ℝ) (h : |a * b| < dblMaxR) :
    rmul (.fin a) (.fin b) = .fin (a * b) := by
  show finOv (a * b) = .fin (a * b)
  exact finOv_fin h

theorem rmul_pinf (a b : ℝ) (h : dblMaxR ≤ a * b) :
    rmul (.fin a) (.fin b) = .pinf := by
  show finOv (a * b) = .pinf
  exact finOv_pinf h

theorem rmul_fin_pinf {x : ℝ} (h : 0 < x) : rmul (.fin x) .pinf = .pinf := by
  show (if 0 < x then RExt.pinf else if x < 0 then RExt.ninf else RExt.nan) = RExt.pinf
  rw [if_pos h]

theorem rmul_fin_pinf_neg {x : ℝ} (h : x < 0) : rmul (.fin x) .pinf = .ninf := by
  show (if 0 < x then RExt.pinf else if x < 0 then RExt.ninf else RExt.nan) = RExt.ninf
  rw [if_neg (by linarith), if_pos h]

theorem rmul_pinf_fin {x : ℝ} (h : 0 < x) : rmul .pinf (.fin x) = .pinf := by
  show (if 0 < x then RExt.pinf else if x < 0 then RExt.ninf else RExt.nan) = RExt.pinf
  rw [if_pos h]

theorem rpowC_nan {y : ℝ} (hy : y ≠ 0) : rpowC RExt.nan y = RExt.nan := by
  unfold rpowC
  rw [if_neg hy]

theorem rcos_fin (a : ℝ) : rcos (.fin a) = .fin (Real.cos a) := rfl

theorem rsin_fin (a : ℝ) : rsin (.fin a) = .fin (Real.sin a) := rfl

theorem rcbrt_fin (a : ℝ) : rcbrt (.fin a) = .fin (realCbrt a) := rfl

theorem ratan2_fin (y x : ℝ) : ratan2 (.fin y) (.fin x) = .fin (atan2R y x) := rfl

theorem rround_fin (a : ℝ) : rround (.fin a) = .fin ((⌊a + 1 / 2⌋ : ℤ) : ℝ) := rfl

theorem rlt_fin (a b : ℝ) : rlt (.fin a) (.fin b) = decide (a < b) := rfl

theorem clamp_fin (a lo hi : ℝ) :
    clamp (.fin a) (.fin lo) (.fin hi) = .fin (max lo (min a hi)) := rfl

theorem rdiv_fin (a b : ℝ) (hb : b ≠ 0) : rdiv (.fin a) (.fin b) = .fin (a / b) := by
  simp [rdiv, hb]

theorem rdiv_fin255 (a : ℝ) : rdiv (.fin a) (.fin 255) = .fin (a / 255) :=
  rdiv_fin a 255 (by norm_num)

theorem rpowC_fin_pos (x y : ℝ) (hx : 0 < x) (hy : y ≠ 0) :
    rpowC (.fin x) y = .fin (x ^ y) := by
  unfold rpowC
  rw [if_neg hy]
  exact if_pos hx

theorem rle_fin (a b : ℝ) : rle (.fin a) (.fin b) = decide (a ≤ b) := rfl

/-- The function `linearTosRGB` sends `NaN` to `NaN` (no branch filters it:
the comparison is false on `NaN` and the power/multiply/subtract chain
propagates it). -/
theorem linearTosRGB_nan : linearTosRGB RExt.nan = RExt.nan := by
  unfold linearTosRGB
  have hcl : clamp RExt.nan (.fin 0) (.fin 1) = RExt.nan := rfl
  have hle : rle RExt.nan (RExt.fin 0.0031308) = false := rfl
  rw [hcl, if_neg (by simp [hle]), rpowC_nan (by norm_num : (1 / 2.4 : ℝ) ≠ 0)]
  rfl

/-- The function `linearTosRGB` sends every finite value to a finite value
in `[-1, 2]` (the clamp bounds the input to `[0, 1]`, so neither gamma
branch can overflow). -/
theorem linearTosRGB_fin (x : ℝ) :
    ∃ y : ℝ, linearTosRGB (.fin x) = .fin y ∧ -1 ≤ y ∧ y ≤ 2 := by
  unfold linearTosRGB
  rw [clamp_fin]
  have hc0 : (0 : ℝ) ≤ max 0 (min x 1) := le_max_left _ _
  have hc1 : max 0 (min x 1) ≤ 1 := max_le (by norm_num) (min_le_right _ _)
  by_cases hc : rle (.fin (max 0 (min x 1))) (.fin 0.0031308) = true
  · have hsm : max 0 (min x 1) ≤ 0.0031308 := by
      rw [rle_fin] at hc
      exact of_decide_eq_true hc
    rw [if_pos hc,
      rmul_fin _ _ (big_lt_dblMaxR (abs_le.mpr ⟨by nlinarith, by nlinarith⟩))]
    exact ⟨_, rfl, by nlinarith, by nlinarith⟩
  · have hm : (0.0031308 : ℝ) < max 0 (min x 1) := by
      refine not_le.mp fun hle => hc ?_
      rw [rle_fin]
      exact decide_eq_true hle
    have hple : (max 0 (min x 1)) ^ ((1 : ℝ) / 2.4) ≤ 1 :=
      Real.rpow_le_one hc0 hc1 (by norm_num)
    have hpnn : (0 : ℝ) ≤ (max 0 (min x 1)) ^ ((1 : ℝ) / 2.4) :=
      Real.rpow_nonneg hc0 _
    rw [if_neg hc, rpowC_fin_pos _ _ (lt_trans (by norm_num) hm) (by norm_num),
      rmul_fin _ _ (big_lt_dblMaxR (abs_le.mpr ⟨by nlinarith, by nlinarith⟩)),
      rsub_fin _ _ (big_lt_dblMaxR (abs_le.mpr ⟨by nlinarith, by nlinarith⟩))]
    exact ⟨_, rfl, by nlinarith, by nlinarith⟩

/-- The function `sRGBtoLinear` sends every finite value to a finite value
in `[0, 1]` (the clamp bounds the input to `[0, 1]`, so neither gamma
branch can overflow). -/
theorem sRGBtoLinear_fin (x : ℝ) :
    ∃ y : ℝ, sRGBtoLinear (.fin x) = .fin y ∧ 0 ≤ y ∧ y ≤ 1 := by
  unfold sRGBtoLinear
  rw [clamp_fin]
  have hc0 : (0 : ℝ) ≤ max 0 (min x 1) := le_max_left _ _
  have hc1 : max 0 (min x 1) ≤ 1 := max_le (by norm_num) (min_le_right _ _)
  by_cases hc : rle (.fin (max 0 (min x 1))) (.fin 0.04045) = true
  · rw [if_pos hc, rdiv_fin _ _ (by norm_num : (12.92 : ℝ) ≠ 0)]
    refine ⟨_, rfl, by positivity, ?_⟩
    rw [div_le_one (by norm_num)]
    linarith
  · have hb : (0 : ℝ) < (max 0 (min x 1) + 0.055) / 1.055 :=
      div_pos (by linarith) (by norm_num)
    rw [if_neg hc,
      radd_fin _ _ (big_lt_dblMaxR (abs_le.mpr ⟨by linarith, by linarith⟩)),
      rdiv_fin _ _ (by norm_num : (1.055 : ℝ) ≠ 0),
      rpowC_fin_pos _ _ hb (by norm_num)]
    refine ⟨_, rfl, Real.rpow_nonneg hb.le _, ?_⟩
    refine Real.rpow_le_one hb.le ?_ (by norm_num)
    rw [div_le_one (by norm_num)]
    linarith

/-! ### Claim C5: range of `oklchToRgb` -/

/-- The gamma stage on an arbitrary transform-layer value: the result is
`NaN` (exactly when the input is `NaN`) or a finite value in `[-1, 2]`
(the input clamp sends both infinities into `[0, 1]` first). -/
theorem linearTosRGB_cases (e : RExt) :
    linearTosRGB e = RExt.nan ∨
      ∃ y : ℝ, linearTosRGB e = .fin y ∧ -1 ≤ y ∧ y ≤ 2 := by
  cases e with
  | fin x => exact Or.inr (linearTosRGB_fin x)
  | pinf =>
    have hcl : clamp RExt.pinf (.fin 0) (.fin 1) = .fin (max 0 1) := rfl
    have h01 : max (0 : ℝ) 1 = 1 := by norm_num
    have hle : rle (RExt.fin 1) (RExt.fin 0.0031308) = false := by
      rw [rle_fin]
      exact decide_eq_false (by norm_num)
    have he : linearTosRGB RExt.pinf = .fin (1.055 * 1 - 0.055) := by
      unfold linearTosRGB
      rw [hcl, h01, if_neg (by simp [hle]),
        rpowC_fin_pos _ _ one_pos (by norm_num), Real.one_rpow,
        rmul_fin _ _ (small_abs (by norm_num) (by norm_num)),
        rsub_fin _ _ (small_abs (by norm_num) (by norm_num))]
    exact Or.inr ⟨_, he, by norm_num, by norm_num⟩
  | ninf =>
    have hcl : clamp RExt.ninf (.fin 0) (.fin 1) = .fin 0 := rfl
    have hle : rle (RExt.fin 0) (RExt.fin 0.0031308) = true := by
      rw [rle_fin]
      exact decide_eq_true (by norm_num)
    have he : linearTosRGB RExt.ninf = .fin (12.92 * 0) := by
      unfold linearTosRGB
      rw [hcl, if_pos hle, rmul_fin _ _ (small_abs (by norm_num) (by norm_num))]
    exact Or.inr ⟨_, he, by norm_num, by norm_num⟩
  | nan => exact Or.inl linearTosRGB_nan

/-- A single output channel of `oklchToRgb` is `NaN` or a whole number in
`[0, 255]`, whatever transform-layer value feeds the gamma stage: the
final round and clamp force any non-`NaN` value into range. -/
theorem component_cases (e : RExt) :
    byteOrNaN (clamp (rround (rmul (linearTosRGB e) (.fin 255))) (.fin 0) (.fin 255)) := by
  rcases linearTosRGB_cases e with hn | ⟨y, hy, hlb, hub⟩
  · rw [hn]
    exact Or.inl rfl
  · rw [hy, rmul_fin _ _ (big_lt_dblMaxR (abs_le.mpr ⟨by nlinarith, by nlinarith⟩)),
      rround_fin, clamp_fin]
    refine Or.inr ⟨max 0 (min ⌊y * 255 + 1 / 2⌋ 255), ?_, le_max_left _ _,
      max_le (by norm_num) (min_le_right _ _)⟩
    congr 1
    push_cast
    rfl

/-- Claim C5 (corrected): for all finite real `l` and `c` and any hue
value (a `NaN` hue being treated as hue `0`), every channel returned by
`oklchToRgb` is either a whole number in `[0, 255]` or `NaN`: the final
round and clamp force any non-`NaN` channel into range, but when the
double arithmetic overflows — as at `l = 1e308`, where the cube is
`Infinity` and the matrix row computes `Inf - Inf = NaN` — the channels
are `NaN` rather than clamped integers, so the function is not an
error-free map onto integers in `[0, 255]` as originally claimed. -/
theorem claim5_oklchToRgb_range (l c : ℝ) (h : RExt) :
    byteOrNaN (oklchToRgb (.fin l) (.fin c) h).1 ∧
      byteOrNaN (oklchToRgb (.fin l) (.fin c) h).2.1 ∧
      byteOrNaN (oklchToRgb (.fin l) (.fin c) h).2.2 ∧
      oklchToRgb (.fin l) (.fin c) RExt.nan = oklchToRgb (.fin l) (.fin c) (.fin 0) := by
  refine ⟨?_, ?_, ?_, rfl⟩ <;> simp only [oklchToRgb] <;> exact component_cases _

/-- Counterexample to claim C5: at the finite inputs `l = 1e308`, `c = 0`,
`h = 0` — reachable, since `Number("1e308")` is a finite double, so
`"oklch(1e308 0 0)"` parses to them — the cube `l·l·l` overflows to
`Infinity`, the LMS-to-linear-sRGB matrix rows then compute
`Inf - Inf = NaN`, and `oklchToRgb` returns `(NaN, NaN, NaN)`: not a
triple of integers in `[0, 255]`, and not clamped into range. -/
theorem claim5_counterexample :
    oklchToRgb (.fin (10 ^ 308 : ℝ)) (.fin 0) (.fin 0) =
      (RExt.nan, RExt.nan, RExt.nan) := by
  have hL : |(10 ^ 308 : ℝ)| < dblMaxR := by
    rw [abs_of_nonneg (by positivity)]
    unfold dblMaxR
    norm_num
  have hml : ∀ x : ℝ, rmul (RExt.fin 0) (RExt.fin x) = RExt.fin 0 := fun x => by
    rw [rmul_fin _ _ (by rw [zero_mul, abs_zero]; exact dblMaxR_pos), zero_mul]
  have hmr : ∀ x : ℝ, rmul (RExt.fin x) (RExt.fin 0) = RExt.fin 0 := fun x => by
    rw [rmul_fin _ _ (by rw [mul_zero, abs_zero]; exact dblMaxR_pos), mul_zero]
  have haddz : radd (RExt.fin (10 ^ 308 : ℝ)) (RExt.fin 0) = RExt.fin (10 ^ 308 : ℝ) := by
    rw [radd_fin _ _ (by rw [add_zero]; exact hL), add_zero]
  have hsubz : rsub (RExt.fin (10 ^ 308 : ℝ)) (RExt.fin 0) = RExt.fin (10 ^ 308 : ℝ) := by
    rw [rsub_fin _ _ (by rw [sub_zero]; exact hL), sub_zero]
  have hsq : rmul (RExt.fin (10 ^ 308 : ℝ)) (RExt.fin (10 ^ 308 : ℝ)) = RExt.pinf := by
    refine rmul_pinf _ _ ?_
    have hpow : (10 ^ 308 : ℝ) * 10 ^ 308 = 10 ^ 616 := by norm_num
    rw [hpow]
    unfold dblMaxR
    norm_num
  have hcube : rmul RExt.pinf (RExt.fin (10 ^ 308 : ℝ)) = RExt.pinf :=
    rmul_pinf_fin (by positivity)
  have k1 : rmul (RExt.fin 4.0767468522) RExt.pinf = RExt.pinf := rmul_fin_pinf (by norm_num)
  have k2 : rmul (RExt.fin 3.3077115882) RExt.pinf = RExt.pinf := rmul_fin_pinf (by norm_num)
  have k3 : rmul (RExt.fin 0.2309647360) RExt.pinf = RExt.pinf := rmul_fin_pinf (by norm_num)
  have k4 : rmul (RExt.fin (-1.2684380046)) RExt.pinf = RExt.ninf :=
    rmul_fin_pinf_neg (by norm_num)
  have k5 : rmul (RExt.fin 2.6097574011) RExt.pinf = RExt.pinf := rmul_fin_pinf (by norm_num)
  have k6 : rmul (RExt.fin 0.3413193965) RExt.pinf = RExt.pinf := rmul_fin_pinf (by norm_num)
  have k7 : rmul (RExt.fin (-0.0041960863)) RExt.pinf = RExt.ninf :=
    rmul_fin_pinf_neg (by norm_num)
  have k8 : rmul (RExt.fin 0.7034186147) RExt.pinf = RExt.pinf := rmul_fin_pinf (by norm_num)
  have k9 : rmul (RExt.fin 1.7076147010) RExt.pinf = RExt.pinf := rmul_fin_pinf (by norm_num)
  have hspp : rsub RExt.pinf RExt.pinf = RExt.nan := rfl
  have hsnp : rsub RExt.ninf RExt.pinf = RExt.ninf := rfl
  have hanp : radd RExt.nan RExt.pinf = RExt.nan := rfl
  have hnp : radd RExt.ninf RExt.pinf = RExt.nan := rfl
  have hsn : rsub RExt.nan RExt.pinf = RExt.nan := rfl
  simp only [oklchToRgb, RExt.isNaN, Bool.false_eq_true, if_false]
  simp only [hml, hmr, rcos_fin, Real.cos_zero, rsin_fin, Real.sin_zero, haddz, hsubz,
    hsq, hcube]
  simp only [k1, k2, k3, k4, k5, k6, k7, k8, k9, hspp, hsnp, hanp, hnp, hsn]
  rw [linearTosRGB_nan]
  rfl

/-! ### Claim C6: range of the hue returned by `rgbToOklch` -/

/-- The hue computation and normalization step: for any finite OKLab
`a`/`b` pair, the `atan2` output scaled to degrees, with 360 added when
negative, lands in `[0, 360)`. -/
theorem hue_norm_range (bb aa : ℝ) :
    ∃ hdeg : ℝ,
      (if rlt (rmul (ratan2 (.fin bb) (.fin aa)) (.fin (180 / Real.pi))) (.fin 0) = true
        then radd (rmul (ratan2 (.fin bb) (.fin aa)) (.fin (180 / Real.pi))) (.fin 360)
        else rmul (ratan2 (.fin bb) (.fin aa)) (.fin (180 / Real.pi))) = .fin hdeg ∧
        0 ≤ hdeg ∧ hdeg < 360 := by
  have hπ : (0 : ℝ) < Real.pi := Real.pi_pos
  have harg := Set.mem_Ioc.mp (Complex.arg_mem_Ioc ⟨aa, bb⟩)
  have h180 : (0 : ℝ) < 180 / Real.pi := by positivity
  have hub : atan2R bb aa * (180 / Real.pi) ≤ 180 := by
    calc atan2R bb aa * (180 / Real.pi) ≤ Real.pi * (180 / Real.pi) :=
          mul_le_mul_of_nonneg_right harg.2 (le_of_lt h180)
      _ = 180 := by field_simp
  have hlb : (-180 : ℝ) < atan2R bb aa * (180 / Real.pi) := by
    calc (-180 : ℝ) = -Real.pi * (180 / Real.pi) := by field_simp; ring
      _ < atan2R bb aa * (180 / Real.pi) := mul_lt_mul_of_pos_right harg.1 h180
  have hm : rmul (ratan2 (.fin bb) (.fin aa)) (.fin (180 / Real.pi)) =
      .fin (atan2R bb aa * (180 / Real.pi)) := by
    rw [ratan2_fin,
      rmul_fin _ _ (big_lt_dblMaxR (abs_le.mpr ⟨by linarith, by linarith⟩))]
  rw [hm, rlt_fin]
  by_cases hneg : atan2R bb aa * (180 / Real.pi) < 0
  · rw [if_pos (decide_eq_true hneg),
      radd_fin _ _ (big_lt_dblMaxR (abs_le.mpr ⟨by linarith, by linarith⟩))]
    exact ⟨_, rfl, by linarith, by linarith⟩
  · rw [if_neg (fun hcon => hneg (of_decide_eq_true hcon))]
    exact ⟨_, rfl, by linarith [not_lt.mp hneg], by linarith⟩

theorem finB_fin {c B : ℝ} (h : |c| ≤ B) : finB B (.fin c) := ⟨c, rfl, h⟩

theorem finB_lit {c B : ℝ} (h1 : -B ≤ c) (h2 : c ≤ B) : finB B (.fin c) :=
  finB_fin (abs_le.mpr ⟨h1, h2⟩)

theorem finB_mul {A B C : ℝ} {a b : RExt} (ha : finB A a) (hb : finB B b)
    (hC : A * B ≤ C) (hbig : C ≤ 10 ^ 9) : finB C (rmul a b) := by
  obtain ⟨x, rfl, hx⟩ := ha
  obtain ⟨y, rfl, hy⟩ := hb
  have hA : (0 : ℝ) ≤ A := le_trans (abs_nonneg x) hx
  have hxy : |x * y| ≤ C := by
    rw [abs_mul]
    calc |x| * |y| ≤ A * B := mul_le_mul hx hy (abs_nonneg y) hA
      _ ≤ C := hC
  exact ⟨x * y, by rw [rmul_fin _ _ (big_lt_dblMaxR (le_trans hxy hbig))], hxy⟩

theorem finB_add {A B C : ℝ} {a b : RExt} (ha : finB A a) (hb : finB B b)
    (hC : A + B ≤ C) (hbig : C ≤ 10 ^ 9) : finB C (radd a b) := by
  obtain ⟨x, rfl, hx⟩ := ha
  obtain ⟨y, rfl, hy⟩ := hb
  have hxy : |x + y| ≤ C := le_trans (abs_add x y) (by linarith)
  exact ⟨x + y, by rw [radd_fin _ _ (big_lt_dblMaxR (le_trans hxy hbig))], hxy⟩

theorem finB_sub {A B C : ℝ} {a b : RExt} (ha : finB A a) (hb : finB B b)
    (hC : A + B ≤ C) (hbig : C ≤ 10 ^ 9) : finB C (rsub a b) := by
  obtain ⟨x, rfl, hx⟩ := ha
  obtain ⟨y, rfl, hy⟩ := hb
  have hxy : |x - y| ≤ C := by
    rw [sub_eq_add_neg]
    refine le_trans (abs_add x (-y)) ?_
    rw [abs_neg]
    linarith
  exact ⟨x - y, by rw [rsub_fin _ _ (big_lt_dblMaxR (le_trans hxy hbig))], hxy⟩

/-- The model of `Math.cbrt` in absolute value: the cube root of the
absolute value. -/
theorem abs_realCbrt (x : ℝ) : |realCbrt x| = |x| ^ ((1 : ℝ) / 3) := by
  unfold realCbrt
  by_cases hx : x < 0
  · rw [if_pos hx, abs_neg, abs_of_nonneg (Real.rpow_nonneg (by linarith) _),
      abs_of_neg hx]
  · have hx' : (0 : ℝ) ≤ x := not_lt.mp hx
    rw [if_neg hx, abs_of_nonneg (Real.rpow_nonneg hx' _), abs_of_nonneg hx']

theorem finB_cbrt {B C : ℝ} {e : RExt} (h : finB B e) (hC : B + 1 ≤ C) :
    finB C (rcbrt e) := by
  obtain ⟨x, rfl, hx⟩ := h
  have hB : (0 : ℝ) ≤ B := le_trans (abs_nonneg x) hx
  refine ⟨realCbrt x, by rw [rcbrt_fin], ?_⟩
  rw [abs_realCbrt]
  rcases le_or_lt |x| 1 with h1 | h1
  · have hle : |x| ^ ((1 : ℝ) / 3) ≤ 1 := Real.rpow_le_one (abs_nonneg x) h1 (by norm_num)
    linarith
  · have hle : |x| ^ ((1 : ℝ) / 3) ≤ |x| ^ (1 : ℝ) :=
      Real.rpow_le_rpow_of_exponent_le h1.le (by norm_num)
    rw [Real.rpow_one] at hle
    linarith

/-- Claim C6: for all real inputs, the hue component returned by
`rgbToOklch` satisfies `0 ≤ h < 360` — never negative (a negative
`atan2` result in degrees has 360 added) and never reaching 360.  The
gamma clamp bounds every intermediate of `rgbToOklch` well below the
double-overflow cutoff, so unlike in `oklchToRgb` no overflow is
reachable here. -/
theorem claim6_hue_range (r g b : ℝ) :
    ∃ hdeg : ℝ, (rgbToOklch (.fin r) (.fin g) (.fin b)).2.2 = .fin hdeg ∧
      0 ≤ hdeg ∧ hdeg < 360 := by
  obtain ⟨x1, h1, h10, h11⟩ := sRGBtoLinear_fin (r / 255)
  obtain ⟨x2, h2, h20, h21⟩ := sRGBtoLinear_fin (g / 255)
  obtain ⟨x3, h3, h30, h31⟩ := sRGBtoLinear_fin (b / 255)
  have f1 : finB 1 (RExt.fin x1) := finB_fin (abs_le.mpr ⟨by linarith, h11⟩)
  have f2 : finB 1 (RExt.fin x2) := finB_fin (abs_le.mpr ⟨by linarith, h21⟩)
  have f3 : finB 1 (RExt.fin x3) := finB_fin (abs_le.mpr ⟨by linarith, h31⟩)
  have c01 : finB 1 (RExt.fin (0.4121656120 : ℝ)) := finB_lit (by norm_num) (by norm_num)
  have c02 : finB 1 (RExt.fin (0.5362752080 : ℝ)) := finB_lit (by norm_num) (by norm_num)
  have c03 : finB 1 (RExt.fin (0.0514575653 : ℝ)) := finB_lit (by norm_num) (by norm_num)
  have c04 : finB 1 (RExt.fin (0.2118561070 : ℝ)) := finB_lit (by norm_num) (by norm_num)
  have c05 : finB 1 (RExt.fin (0.6807189584 : ℝ)) := finB_lit (by norm_num) (by norm_num)
  have c06 : finB 1 (RExt.fin (0.1074065790 : ℝ)) := finB_lit (by norm_num) (by norm_num)
  have c07 : finB 1 (RExt.fin (0.0883097947 : ℝ)) := finB_lit (by norm_num) (by norm_num)
  have c08 : finB 1 (RExt.fin (0.2818474174 : ℝ)) := finB_lit (by norm_num) (by norm_num)
  have c09 : finB 1 (RExt.fin (0.6302613616 : ℝ)) := finB_lit (by norm_num) (by norm_num)
  have p1 := @finB_mul 1 1 1 _ _ c01 f1 (by norm_num) (by norm_num)
  have p2 := @finB_mul 1 1 1 _ _ c02 f2 (by norm_num) (by norm_num)
  have p3 := @finB_mul 1 1 1 _ _ c03 f3 (by norm_num) (by norm_num)
  have p4 := @finB_mul 1 1 1 _ _ c04 f1 (by norm_num) (by norm_num)
  have p5 := @finB_mul 1 1 1 _ _ c05 f2 (by norm_num) (by norm_num)
  have p6 := @finB_mul 1 1 1 _ _ c06 f3 (by norm_num) (by norm_num)
  have p7 := @finB_mul 1 1 1 _ _ c07 f1 (by norm_num) (by norm_num)
  have p8 := @finB_mul 1 1 1 _ _ c08 f2 (by norm_num) (by norm_num)
  have p9 := @finB_mul 1 1 1 _ _ c09 f3 (by norm_num) (by norm_num)
  have flms1 := @finB_add 2 1 3 _ _ (@finB_add 1 1 2 _ _ p1 p2 (by norm_num) (by norm_num))
    p3 (by norm_num) (by norm_num)
  have flms2 := @finB_add 2 1 3 _ _ (@finB_add 1 1 2 _ _ p4 p5 (by norm_num) (by norm_num))
    p6 (by norm_num) (by norm_num)
  have flms3 := @finB_add 2 1 3 _ _ (@finB_add 1 1 2 _ _ p7 p8 (by norm_num) (by norm_num))
    p9 (by norm_num) (by norm_num)
  have fcb1 := @finB_cbrt 3 4 _ flms1 (by norm_num)
  have fcb2 := @finB_cbrt 3 4 _ flms2 (by norm_num)
  have fcb3 := @finB_cbrt 3 4 _ flms3 (by norm_num)
  have d01 : finB 3 (RExt.fin (1.9779984951 : ℝ)) := finB_lit (by norm_num) (by norm_num)
  have d02 : finB 3 (RExt.fin (2.4285922050 : ℝ)) := finB_lit (by norm_num) (by norm_num)
  have d03 : finB 3 (RExt.fin (0.4505937099 : ℝ)) := finB_lit (by norm_num) (by norm_num)
  have d04 : finB 3 (RExt.fin (0.0259040371 : ℝ)) := finB_lit (by norm_num) (by norm_num)
  have d05 : finB 3 (RExt.fin (0.7827717662 : ℝ)) := finB_lit (by norm_num) (by norm_num)
  have d06 : finB 3 (RExt.fin (0.8086757660 : ℝ)) := finB_lit (by norm_num) (by norm_num)
  have q1 := @finB_mul 3 4 12 _ _ d01 fcb1 (by norm_num) (by norm_num)
  have q2 := @finB_mul 3 4 12 _ _ d02 fcb2 (by norm_num) (by norm_num)
  have q3 := @finB_mul 3 4 12 _ _ d03 fcb3 (by norm_num) (by norm_num)
  have q4 := @finB_mul 3 4 12 _ _ d04 fcb1 (by norm_num) (by norm_num)
  have q5 := @finB_mul 3 4 12 _ _ d05 fcb2 (by norm_num) (by norm_num)
  have q6 := @finB_mul 3 4 12 _ _ d06 fcb3 (by norm_num) (by norm_num)
  have fla := @finB_add 24 12 36 _ _
    (@finB_sub 12 12 24 _ _ q1 q2 (by norm_num) (by norm_num)) q3 (by norm_num) (by norm_num)
  have flb := @finB_sub 24 12 36 _ _
    (@finB_add 12 12 24 _ _ q4 q5 (by norm_num) (by norm_num)) q6 (by norm_num) (by norm_num)
  obtain ⟨aa, ea, -⟩ := fla
  obtain ⟨bb, eb, -⟩ := flb
  simp only [rgbToOklch, rdiv_fin255, h1, h2, h3]
  rw [ea, eb]
  exact hue_norm_range bb aa

/-! ### Character-class facts for the hex claims -/

/-- The hexadecimal digit characters, in either case. -/
def hexChars : List Char := str "0123456789abcdefABCDEF"

/-- The lowercase hexadecimal digit characters. -/
def lowerHexChars : List Char := str "0123456789abcdef"

theorem hexChar_not_ws : ∀ c ∈ hexChars, jsIsWs c = false := by decide

theorem hexChar_lower : ∀ c ∈ hexChars,
    Char.toLower c ∈ lowerHexChars ∧
    jsIsWs (Char.toLower c) = false ∧
    (charDigitVal (Char.toLower c)).getD 0 < 16 ∧
    Nat.digitChar ((charDigitVal (Char.toLower c)).getD 0) = Char.toLower c := by decide

theorem jsParseInt16_pairs : ∀ d1 ∈ lowerHexChars, ∀ d2 ∈ lowerHexChars,
    jsParseInt16 [d1, d2] =
      JSNum.num ((16 * ((charDigitVal d1).getD 0) + (charDigitVal d2).getD 0 : ℕ) : ℚ) := by
  with_unfolding_all decide

theorem byte_pad16 : ∀ n : ℕ, n < 256 →
    padStart2 (natDigits 16 n) = [Nat.digitChar (n / 16), Nat.digitChar (n % 16)] := by
  decide

theorem byte_parse10 : ∀ n : ℕ, n < 256 →
    jsStrToNum (natDigits 10 n) = JSNum.num (n : ℚ) := by
  with_unfolding_all decide

theorem byte_digit_chars : ∀ n : ℕ, n < 256 →
    natDigits 10 n ≠ [] ∧ ∀ ch ∈ natDigits 10 n,
      jsIsWs ch = false ∧ Char.toLower ch = ch ∧ (ch == ',') = false ∧
        (ch == '(') = false := by
  decide

/-! ### Serialization of naturals through `rextToStrB` -/

theorem realFracDigitsAux_zero (base fuel : ℕ) :
    realFracDigitsAux base fuel 0 = List.replicate fuel '0' := by
  induction fuel with
  | zero => rfl
  | succ n ih =>
    rw [realFracDigitsAux]
    simp only [zero_mul, Int.floor_zero, Int.toNat_zero, Nat.zero_mod, Int.cast_zero,
      sub_zero, ih]
    rfl

theorem dropWhile_zero_replicate (n : ℕ) :
    List.dropWhile (fun c => c == '0') (List.replicate n '0') = [] := by
  induction n with
  | zero => rfl
  | succ k ih => rw [List.replicate_succ, List.dropWhile_cons]; simpa using ih

theorem trimZeros_replicate (n : ℕ) : trimZeros (List.replicate n '0') = [] := by
  simp [trimZeros, List.reverse_replicate, dropWhile_zero_replicate]

/-- The model of `Number.prototype.toString(radix)` on a nonnegative integer prints
exactly its digits. -/
theorem rextToStrB_nat (base n : ℕ) :
    rextToStrB base (.fin (n : ℝ)) = natDigits base n := by
  simp only [rextToStrB]
  rw [if_neg (not_lt.mpr (Nat.cast_nonneg n))]
  unfold realToStrNonneg
  have hfl : ⌊(n : ℝ)⌋ = (n : ℤ) := Int.floor_natCast n
  have hzero : (n : ℝ) - ((⌊(n : ℝ)⌋ : ℤ) : ℝ) = 0 := by rw [hfl]; push_cast; ring
  rw [hzero, realFracDigitsAux_zero, trimZeros_replicate, hfl]
  simp

/-! ### List-splitting lemmas for the round-trip claims -/

theorem dropWhile_eq_self_of {p : Char → Bool} {l : JSStr} (h : ∀ c ∈ l, p c = false) :
    l.dropWhile p = l := by
  cases l with
  | nil => rfl
  | cons a t => rw [List.dropWhile_cons, h a (by simp)]; simp

theorem jsTrim_of_no_ws {l : JSStr} (h : ∀ c ∈ l, jsIsWs c = false) : jsTrim l = l := by
  unfold jsTrim
  rw [dropWhile_eq_self_of h,
    dropWhile_eq_self_of (fun c hc => h c (List.mem_reverse.mp hc)),
    List.reverse_reverse]

/-- The model of `trim` is the identity on a string with non-whitespace first and
last characters. -/
theorem jsTrim_wrap (c d : Char) (mid : JSStr) (hc : jsIsWs c = false)
    (hd : jsIsWs d = false) :
    jsTrim (c :: (mid ++ [d])) = c :: (mid ++ [d]) := by
  unfold jsTrim
  have h1 : List.dropWhile jsIsWs (c :: (mid ++ [d])) = c :: (mid ++ [d]) := by
    rw [List.dropWhile_cons, hc]; simp
  rw [h1]
  have h2 : (c :: (mid ++ [d])).reverse = d :: (mid.reverse ++ [c]) := by simp
  rw [h2, List.dropWhile_cons, hd]
  simp

theorem map_self_of {f : Char → Char} {l : JSStr} (h : ∀ x ∈ l, f x = x) :
    l.map f = l := by
  induction l with
  | nil => rfl
  | cons a t ih =>
    rw [List.map_cons, h a (by simp), ih (fun x hx => h x (by simp [hx]))]

theorem jsSubstring_of_le (s : JSStr) (a b : ℕ) (hab : a ≤ b) (hb : b ≤ s.length) :
    jsSubstring s (a : Int) (b : Int) = (s.drop a).take (b - a) := by
  simp only [jsSubstring]
  have h1 : min (max (a : Int) 0) (s.length : Int) = (a : Int) := by omega
  have h2 : min (max (b : Int) 0) (s.length : Int) = (b : Int) := by omega
  rw [h1, h2]
  have h3 : min (a : Int) (b : Int) = (a : Int) := by omega
  have h4 : max (a : Int) (b : Int) = (b : Int) := by omega
  rw [h3, h4]
  congr 1

theorem jsSplitOn_cons_sep (sep : Char) (t : JSStr) :
    jsSplitOn sep (sep :: t) = [] :: jsSplitOn sep t := by
  simp [jsSplitOn]

theorem jsSplitOn_ne_nil (sep : Char) (s : JSStr) : jsSplitOn sep s ≠ [] := by
  induction s with
  | nil => simp [jsSplitOn]
  | cons c t ih =>
    simp only [jsSplitOn, List.foldr_cons]
    split
    · simp
    · split
      · simp
      · simp

theorem jsSplitOn_cons_ne (sep c : Char) (t : JSStr) (h : (c == sep) = false) :
    jsSplitOn sep (c :: t) =
      match jsSplitOn sep t with
      | a :: as => (c :: a) :: as
      | [] => [[c]] := by
  simp only [jsSplitOn, List.foldr_cons, h, Bool.false_eq_true, if_false]

/-- Splitting a string that contains no separator yields the single
field. -/
theorem jsSplitOn_no_sep (sep : Char) (l : JSStr) (hl : ∀ c ∈ l, (c == sep) = false) :
    jsSplitOn sep l = [l] := by
  induction l with
  | nil => rfl
  | cons c t ih =>
    rw [jsSplitOn_cons_ne sep c t (hl c (by simp)),
      ih (fun x hx => hl x (by simp [hx]))]

/-- Splitting `l ++ sep :: t` where `l` has no separator puts `l` first. -/
theorem jsSplitOn_append_sep (sep : Char) (l : JSStr)
    (hl : ∀ c ∈ l, (c == sep) = false) (t : JSStr) :
    jsSplitOn sep (l ++ sep :: t) = l :: jsSplitOn sep t := by
  induction l with
  | nil => exact jsSplitOn_cons_sep sep t
  | cons c l' ih =>
    rw [List.cons_append, jsSplitOn_cons_ne sep c _ (hl c (by simp)),
      ih (fun x hx => hl x (by simp [hx]))]

/-! ### Claim C8: shorthand hex expansion -/

/-- When the cleaned input starts with `#`, only the hex branch can
fire. -/
theorem parseColor_cleaned_hash (s u : JSStr)
    (h : jsToLower (jsTrim s) = '#' :: u) :
    parseColor s =
      match tryHex ('#' :: u) with
      | some res => res
      | none => unknownResult := by
  simp only [parseColor, h]
  rw [tryOklch_none ('#' :: u) rfl, tryRgb_none ('#' :: u) rfl]

/-- The hex branch treats a 3-character body exactly as the 6-character
body obtained by duplicating each character. -/
theorem tryHex_shorthand (x y z : Char) :
    tryHex ['#', x, y, z] = tryHex ['#', x, x, y, y, z, z] := by
  have s1 : jsStartsWith ['#', x, y, z] (str "#") = true := rfl
  have s2 : jsStartsWith ['#', x, x, y, y, z, z] (str "#") = true := rfl
  have e1 : jsSubstring ['#', x, y, z] 1 (List.length ['#', x, y, z] : Int) =
      [x, y, z] := rfl
  have e2 : jsSubstring ['#', x, x, y, y, z, z] 1
      (List.length ['#', x, x, y, y, z, z] : Int) = [x, x, y, y, z, z] := rfl
  simp only [tryHex, s1, s2, e1, e2, eq_self_iff_true, if_true]

/-- Claim C8: for every 3-character hex body, parsing the shorthand form
equals parsing the 6-character form obtained by duplicating each digit
(the hex branch expands the shorthand to exactly that 6-character body
before reading it). -/
theorem claim8_shorthand (a b c : Char) (ha : a ∈ hexChars) (hb : b ∈ hexChars)
    (hc : c ∈ hexChars) :
    parseColor ['#', a, b, c] = parseColor ['#', a, a, b, b, c, c] := by
  have hwa := hexChar_not_ws a ha
  have hwb := hexChar_not_ws b hb
  have hwc := hexChar_not_ws c hc
  have hwh : jsIsWs '#' = false := by decide
  have hlh : Char.toLower '#' = '#' := by decide
  have t1 : jsTrim ['#', a, b, c] = ['#', a, b, c] := by
    refine jsTrim_of_no_ws fun x hx => ?_
    simp only [List.mem_cons, List.not_mem_nil, or_false] at hx
    rcases hx with rfl | rfl | rfl | rfl
    · exact hwh
    · exact hwa
    · exact hwb
    · exact hwc
  have t2 : jsTrim ['#', a, a, b, b, c, c] = ['#', a, a, b, b, c, c] := by
    refine jsTrim_of_no_ws fun x hx => ?_
    simp only [List.mem_cons, List.not_mem_nil, or_false] at hx
    rcases hx with rfl | rfl | rfl | rfl | rfl | rfl | rfl
    · exact hwh
    · exact hwa
    · exact hwa
    · exact hwb
    · exact hwb
    · exact hwc
    · exact hwc
  have l1 : jsToLower (jsTrim ['#', a, b, c]) =
      '#' :: [a.toLower, b.toLower, c.toLower] := by
    rw [t1]; simp [jsToLower, hlh]
  have l2 : jsToLower (jsTrim ['#', a, a, b, b, c, c]) =
      '#' :: [a.toLower, a.toLower, b.toLower, b.toLower, c.toLower, c.toLower] := by
    rw [t2]; simp [jsToLower, hlh]
  rw [parseColor_cleaned_hash _ _ l1, parseColor_cleaned_hash _ _ l2,
    tryHex_shorthand]

/-- Witness for claim C8 at `"#abc"` versus `"#aabbcc"`. -/
theorem claim8_shorthand_witness :
    parseColor ['#', 'a', 'b', 'c'] = parseColor ['#', 'a', 'a', 'b', 'b', 'c', 'c'] :=
  claim8_shorthand 'a' 'b' 'c' (by decide) (by decide) (by decide)

/-! ### Claim C7: hex round trip -/

/-- The canonical (right-nested) shape of the serialized
`rgb(X, Y, Z)` template, used to chain the round-trip lemmas. -/
def rgbStrOf (x y z : JSStr) : JSStr :=
  'r' :: 'g' :: 'b' :: '(' :: (x ++ ',' :: ' ' :: (y ++ ',' :: ' ' :: (z ++ [')'])))

theorem jsTrim_eq_self_of_head_last {l : JSStr} {c d : Char} {t m : JSStr}
    (h1 : l = c :: t) (h2 : l = m ++ [d]) (hc : jsIsWs c = false)
    (hd : jsIsWs d = false) : jsTrim l = l := by
  unfold jsTrim
  have f1 : List.dropWhile jsIsWs l = l := by
    rw [h1, List.dropWhile_cons, hc]; simp
  have f2 : l.reverse = d :: m.reverse := by rw [h2]; simp
  rw [f1, f2, List.dropWhile_cons, hd]
  simp only [Bool.false_eq_true, if_false]
  rw [← f2, List.reverse_reverse]

theorem jsTrim_space (y : JSStr) (h : ∀ c ∈ y, jsIsWs c = false) :
    jsTrim (' ' :: y) = y := by
  unfold jsTrim
  rw [List.dropWhile_cons]
  simp only [show jsIsWs ' ' = true from rfl, if_true]
  rw [dropWhile_eq_self_of h,
    dropWhile_eq_self_of (fun c hc => h c (List.mem_reverse.mp hc)),
    List.reverse_reverse]

theorem substring_rgbStr (x y z : JSStr) :
    jsSubstring (rgbStrOf x y z) (3 + 1) (((rgbStrOf x y z).length : Int) - 1) =
      x ++ ',' :: ' ' :: (y ++ ',' :: ' ' :: z) := by
  have hlen : (rgbStrOf x y z).length =
      4 + (x.length + (2 + (y.length + (2 + (z.length + 1))))) := by
    simp [rgbStrOf]
    omega
  have h4 : (3 + 1 : Int) = ((4 : ℕ) : Int) := by norm_num
  have hsub : ((rgbStrOf x y z).length : Int) - 1 =
      (((rgbStrOf x y z).length - 1 : ℕ) : Int) := by
    rw [hlen]; push_cast; omega
  rw [h4, hsub, jsSubstring_of_le _ 4 ((rgbStrOf x y z).length - 1) (by omega) (by omega)]
  have hdrop : (rgbStrOf x y z).drop 4 =
      x ++ ',' :: ' ' :: (y ++ ',' :: ' ' :: (z ++ [')'])) := rfl
  rw [hdrop]
  have hcount : (rgbStrOf x y z).length - 1 - 4 =
      (x ++ ',' :: ' ' :: (y ++ ',' :: ' ' :: z)).length := by
    rw [hlen]; simp; omega
  have hshape : x ++ ',' :: ' ' :: (y ++ ',' :: ' ' :: (z ++ [')'])) =
      (x ++ ',' :: ' ' :: (y ++ ',' :: ' ' :: z)) ++ [')'] := by
    simp [List.append_assoc]
  rw [hcount, hshape, List.take_left]

/-- Parsing the serialized `rgb(r, g, b)` string recovers the byte
triple. -/
theorem parse_rgb_string (r g b : ℕ) (hr : r < 256) (hg : g < 256) (hb : b < 256) :
    parseColor (rgbStrOf (natDigits 10 r) (natDigits 10 g) (natDigits 10 b)) =
      ⟨str "rgb", [JSNum.num (r : ℚ), JSNum.num (g : ℚ), JSNum.num (b : ℚ)]⟩ := by
  obtain ⟨hXne, hXall⟩ := byte_digit_chars r hr
  obtain ⟨hYne, hYall⟩ := byte_digit_chars g hg
  obtain ⟨hZne, hZall⟩ := byte_digit_chars b hb
  have hXws : ∀ c ∈ natDigits 10 r, jsIsWs c = false := fun c hc => (hXall c hc).1
  have hYws : ∀ c ∈ natDigits 10 g, jsIsWs c = false := fun c hc => (hYall c hc).1
  have hZws : ∀ c ∈ natDigits 10 b, jsIsWs c = false := fun c hc => (hZall c hc).1
  have htrim : jsTrim (rgbStrOf (natDigits 10 r) (natDigits 10 g) (natDigits 10 b)) =
      rgbStrOf (natDigits 10 r) (natDigits 10 g) (natDigits 10 b) := by
    refine jsTrim_eq_self_of_head_last (c := 'r') (d := ')')
      (m := 'r' :: 'g' :: 'b' :: '(' :: (natDigits 10 r ++ ',' :: ' ' ::
        (natDigits 10 g ++ ',' :: ' ' :: natDigits 10 b))) rfl ?_ (by decide) (by decide)
    simp [rgbStrOf, List.append_assoc]
  have hlower : jsToLower (rgbStrOf (natDigits 10 r) (natDigits 10 g) (natDigits 10 b)) =
      rgbStrOf (natDigits 10 r) (natDigits 10 g) (natDigits 10 b) := by
    simp only [jsToLower, rgbStrOf, List.map_cons, List.map_append]
    rw [map_self_of (fun c hc => (hXall c hc).2.1),
      map_self_of (fun c hc => (hYall c hc).2.1),
      map_self_of (fun c hc => (hZall c hc).2.1)]
    norm_num [(by decide : 'r'.toLower = 'r'), (by decide : 'g'.toLower = 'g'),
      (by decide : 'b'.toLower = 'b'), (by decide : '('.toLower = '('),
      (by decide : ','.toLower = ','), (by decide : ' '.toLower = ' '),
      (by decide : ')'.toLower = ')')]
  have hcl : jsToLower (jsTrim (rgbStrOf (natDigits 10 r) (natDigits 10 g)
      (natDigits 10 b))) = rgbStrOf (natDigits 10 r) (natDigits 10 g) (natDigits 10 b) := by
    rw [htrim, hlower]
  have hsw : jsStartsWith (rgbStrOf (natDigits 10 r) (natDigits 10 g) (natDigits 10 b))
      (str "rgb") = true := rfl
  have hidx : jsIndexOf (rgbStrOf (natDigits 10 r) (natDigits 10 g) (natDigits 10 b))
      '(' = 3 := rfl
  have hsplit : jsSplitOn ',' (natDigits 10 r ++ ',' :: ' ' ::
      (natDigits 10 g ++ ',' :: ' ' :: natDigits 10 b)) =
      [natDigits 10 r, ' ' :: natDigits 10 g, ' ' :: natDigits 10 b] := by
    rw [jsSplitOn_append_sep ',' _ (fun c hc => (hXall c hc).2.2.1),
      jsSplitOn_cons_ne ',' ' ' _ rfl,
      jsSplitOn_append_sep ',' _ (fun c hc => (hYall c hc).2.2.1),
      jsSplitOn_cons_ne ',' ' ' _ rfl,
      jsSplitOn_no_sep ',' _ (fun c hc => (hZall c hc).2.2.1)]
  have htok : rgbTokens (rgbStrOf (natDigits 10 r) (natDigits 10 g) (natDigits 10 b)) =
      [JSNum.num (r : ℚ), JSNum.num (g : ℚ), JSNum.num (b : ℚ)] := by
    simp only [rgbTokens]
    rw [hidx, substring_rgbStr, hsplit, List.map_cons, List.map_cons, List.map_cons,
      List.map_nil, jsTrim_of_no_ws hXws, jsTrim_space _ hYws, jsTrim_space _ hZws,
      byte_parse10 r hr, byte_parse10 g hg, byte_parse10 b hb]
  have hcond : (([JSNum.num (r : ℚ), JSNum.num (g : ℚ), JSNum.num (b : ℚ)].length == 3 ||
      [JSNum.num (r : ℚ), JSNum.num (g : ℚ), JSNum.num (b : ℚ)].length == 4) &&
      [JSNum.num (r : ℚ), JSNum.num (g : ℚ), JSNum.num (b : ℚ)].all
        fun v => !v.isNaN) = true := by
    simp [JSNum.isNaN]
  have h4f : ¬(([JSNum.num (r : ℚ), JSNum.num (g : ℚ), JSNum.num (b : ℚ)].length == 4)
      = true) := by simp
  simp only [parseColor, hcl,
    tryOklch_none (rgbStrOf (natDigits 10 r) (natDigits 10 g) (natDigits 10 b)) rfl,
    tryRgb_char _ hsw, htok, hcond, if_pos, if_neg h4f]

theorem rgbTemplate_shape (x y z : JSStr) :
    str "rgb(" ++ x ++ str ", " ++ y ++ str ", " ++ z ++ str ")" = rgbStrOf x y z := by
  have a1 : str "rgb(" = 'r' :: 'g' :: 'b' :: '(' :: [] := rfl
  have a2 : str ", " = ',' :: ' ' :: [] := rfl
  have a3 : str ")" = ')' :: [] := rfl
  simp only [a1, a2, a3, rgbStrOf, List.cons_append, List.nil_append, List.append_assoc]

theorem toRExt_natQ (n : ℕ) : (JSNum.num (n : ℚ)).toRExt = RExt.fin (n : ℝ) := by
  simp [JSNum.toRExt]

/-- The hex branch of `convertColor` on a byte triple: the rgb entry
carries the components verbatim. -/
theorem convert_hex_rgb (r g b : ℕ) :
    convertColor (str "hex") [JSNum.num (r : ℚ), JSNum.num (g : ℚ), JSNum.num (b : ℚ)] =
      [⟨str "oklch", oklchTemplate (rgbToOklch (.fin (r : ℝ)) (.fin (g : ℝ)) (.fin (b : ℝ)))⟩,
        ⟨str "rgb", rgbStrOf (natDigits 10 r) (natDigits 10 g) (natDigits 10 b)⟩] := by
  have hgp : ¬((([JSNum.num (r : ℚ), JSNum.num (g : ℚ), JSNum.num (b : ℚ)].length == 0) ||
      [JSNum.num (r : ℚ), JSNum.num (g : ℚ), JSNum.num (b : ℚ)].any
        fun v => v.isNaN) = true) := by
    simp [JSNum.isNaN]
  have d1 : ¬(str "hex" = str "oklch") := by decide
  have d2 : ¬(str "hex" = str "rgb" ∨ str "hex" = str "rgba") := by decide
  rw [convertColor, if_neg hgp, if_neg d1, if_neg d2, if_pos rfl]
  simp only [List.getD_cons_zero, List.getD_cons_succ, toRExt_natQ, rgbTemplate,
    rextToStrB_nat, rgbTemplate_shape]

/-- The rgb branch of `convertColor` on an in-range byte triple: the hex
entry carries the two-digit lowercase hex form of each component. -/
theorem convert_rgb_hex (r g b : ℕ) (hr : r < 256) (hg : g < 256) (hb : b < 256) :
    convertColor (str "rgb") [JSNum.num (r : ℚ), JSNum.num (g : ℚ), JSNum.num (b : ℚ)] =
      [⟨str "oklch", oklchTemplate (rgbToOklch (.fin (r : ℝ)) (.fin (g : ℝ)) (.fin (b : ℝ)))⟩,
        ⟨str "hex", '#' :: (padStart2 (natDigits 16 r) ++ padStart2 (natDigits 16 g) ++
          padStart2 (natDigits 16 b))⟩] := by
  have hgp : ¬((([JSNum.num (r : ℚ), JSNum.num (g : ℚ), JSNum.num (b : ℚ)].length == 0) ||
      [JSNum.num (r : ℚ), JSNum.num (g : ℚ), JSNum.num (b : ℚ)].any
        fun v => v.isNaN) = true) := by
    simp [JSNum.isNaN]
  have d1 : ¬(str "rgb" = str "oklch") := by decide
  rw [convertColor, if_neg hgp, if_neg d1,
    if_pos (Or.inl rfl : str "rgb" = str "rgb" ∨ str "rgb" = str "rgba")]
  have hclamp : ∀ n : ℕ, n < 256 →
      clamp (RExt.fin (n : ℝ)) (.fin 0) (.fin 255) = RExt.fin (n : ℝ) := by
    intro n hn
    rw [clamp_fin, min_eq_left (by exact_mod_cast Nat.lt_succ_iff.mp hn),
      max_eq_right (Nat.cast_nonneg n)]
  have hround : ∀ n : ℕ, rround (RExt.fin (n : ℝ)) = RExt.fin (n : ℝ) := by
    intro n
    rw [rround_fin]
    have hfl : ⌊(n : ℝ) + 1 / 2⌋ = (n : ℤ) := by
      rw [Int.floor_eq_iff]
      constructor
      · push_cast; linarith
      · push_cast; linarith
    rw [hfl]
    norm_num
  simp only [List.getD_cons_zero, List.getD_cons_succ, toRExt_natQ, hclamp r hr,
    hclamp g hg, hclamp b hb, hround, hexTemplate, rextToStrB_nat]

/-- The function `tryHex` on `#` followed by exactly six characters reads the three
2-character groups with `parseInt(·, 16)`. -/
theorem tryHex_six (x1 x2 x3 x4 x5 x6 : Char) :
    tryHex ['#', x1, x2, x3, x4, x5, x6] =
      (if (!(jsParseInt16 [x1, x2]).isNaN && !(jsParseInt16 [x3, x4]).isNaN &&
          !(jsParseInt16 [x5, x6]).isNaN) = true then
        some ⟨str "hex", [jsParseInt16 [x1, x2], jsParseInt16 [x3, x4],
          jsParseInt16 [x5, x6]]⟩
      else none) := by
  have s1 : jsStartsWith ['#', x1, x2, x3, x4, x5, x6] (str "#") = true := rfl
  have e1 : jsSubstring ['#', x1, x2, x3, x4, x5, x6] 1
      (List.length ['#', x1, x2, x3, x4, x5, x6] : Int) = [x1, x2, x3, x4, x5, x6] := rfl
  have p1 : jsSubstring [x1, x2, x3, x4, x5, x6] 0 2 = [x1, x2] := rfl
  have p2 : jsSubstring [x1, x2, x3, x4, x5, x6] 2 4 = [x3, x4] := rfl
  have p3 : jsSubstring [x1, x2, x3, x4, x5, x6] 4 6 = [x5, x6] := rfl
  have c6 : (List.length [x1, x2, x3, x4, x5, x6] == 6) = true := rfl
  simp only [tryHex, s1, e1, p1, p2, p3, c6, eq_self_iff_true, if_true]

/-- Claim C7: for every string of `#` followed by 6 hexadecimal digits
(in either case), parsing yields the hex byte triple, converting emits
the verbatim `rgb(r, g, b)` entry, and feeding that back through parse
and convert reproduces the original 6 hex digits exactly, in lowercase,
via the hex output of the rgb branch. -/
theorem claim7_hex_roundtrip (c1 c2 c3 c4 c5 c6 : Char)
    (h1 : c1 ∈ hexChars) (h2 : c2 ∈ hexChars) (h3 : c3 ∈ hexChars)
    (h4 : c4 ∈ hexChars) (h5 : c5 ∈ hexChars) (h6 : c6 ∈ hexChars) :
    ∀ p1 rgbEntry p2 hexEntry,
      p1 = parseColor ['#', c1, c2, c3, c4, c5, c6] →
      rgbEntry = (convertColor p1.format p1.values).getD 1 ⟨[], []⟩ →
      p2 = parseColor rgbEntry.value →
      hexEntry = (convertColor p2.format p2.values).getD 1 ⟨[], []⟩ →
      p1.format = str "hex" ∧ rgbEntry.format = str "rgb" ∧
        hexEntry.format = str "hex" ∧
        hexEntry.value = '#' :: [c1.toLower, c2.toLower, c3.toLower, c4.toLower,
          c5.toLower, c6.toLower] := by
  intro p1 rgbEntry p2 hexEntry hp1 hrgbE hp2 hhexE
  obtain ⟨m1, w1, v1lt, d1⟩ := hexChar_lower c1 h1
  obtain ⟨m2, w2, v2lt, d2⟩ := hexChar_lower c2 h2
  obtain ⟨m3, w3, v3lt, d3⟩ := hexChar_lower c3 h3
  obtain ⟨m4, w4, v4lt, d4⟩ := hexChar_lower c4 h4
  obtain ⟨m5, w5, v5lt, d5⟩ := hexChar_lower c5 h5
  obtain ⟨m6, w6, v6lt, d6⟩ := hexChar_lower c6 h6
  have hrlt : 16 * (charDigitVal c1.toLower).getD 0 + (charDigitVal c2.toLower).getD 0
      < 256 := by omega
  have hglt : 16 * (charDigitVal c3.toLower).getD 0 + (charDigitVal c4.toLower).getD 0
      < 256 := by omega
  have hblt : 16 * (charDigitVal c5.toLower).getD 0 + (charDigitVal c6.toLower).getD 0
      < 256 := by omega
  have t0 : jsTrim ['#', c1, c2, c3, c4, c5, c6] = ['#', c1, c2, c3, c4, c5, c6] := by
    refine jsTrim_of_no_ws fun x hx => ?_
    simp only [List.mem_cons, List.not_mem_nil, or_false] at hx
    rcases hx with rfl | rfl | rfl | rfl | rfl | rfl | rfl
    · decide
    · exact hexChar_not_ws _ h1
    · exact hexChar_not_ws _ h2
    · exact hexChar_not_ws _ h3
    · exact hexChar_not_ws _ h4
    · exact hexChar_not_ws _ h5
    · exact hexChar_not_ws _ h6
  have l0 : jsToLower (jsTrim ['#', c1, c2, c3, c4, c5, c6]) =
      '#' :: [c1.toLower, c2.toLower, c3.toLower, c4.toLower, c5.toLower, c6.toLower] := by
    rw [t0]
    simp [jsToLower, (by decide : Char.toLower '#' = '#')]
  have hp1' : p1 = ⟨str "hex",
      [JSNum.num ((16 * (charDigitVal c1.toLower).getD 0 +
          (charDigitVal c2.toLower).getD 0 : ℕ) : ℚ),
        JSNum.num ((16 * (charDigitVal c3.toLower).getD 0 +
          (charDigitVal c4.toLower).getD 0 : ℕ) : ℚ),
        JSNum.num ((16 * (charDigitVal c5.toLower).getD 0 +
          (charDigitVal c6.toLower).getD 0 : ℕ) : ℚ)]⟩ := by
    rw [hp1, parseColor_cleaned_hash _ _ l0, tryHex_six,
      jsParseInt16_pairs _ m1 _ m2, jsParseInt16_pairs _ m3 _ m4,
      jsParseInt16_pairs _ m5 _ m6]
    simp [JSNum.isNaN]
  have hrgbE' : rgbEntry = ⟨str "rgb",
      rgbStrOf (natDigits 10 (16 * (charDigitVal c1.toLower).getD 0 +
          (charDigitVal c2.toLower).getD 0))
        (natDigits 10 (16 * (charDigitVal c3.toLower).getD 0 +
          (charDigitVal c4.toLower).getD 0))
        (natDigits 10 (16 * (charDigitVal c5.toLower).getD 0 +
          (charDigitVal c6.toLower).getD 0))⟩ := by
    rw [hrgbE, hp1']
    rw [convert_hex_rgb]
    rfl
  have hp2' : p2 = ⟨str "rgb",
      [JSNum.num ((16 * (charDigitVal c1.toLower).getD 0 +
          (charDigitVal c2.toLower).getD 0 : ℕ) : ℚ),
        JSNum.num ((16 * (charDigitVal c3.toLower).getD 0 +
          (charDigitVal c4.toLower).getD 0 : ℕ) : ℚ),
        JSNum.num ((16 * (charDigitVal c5.toLower).getD 0 +
          (charDigitVal c6.toLower).getD 0 : ℕ) : ℚ)]⟩ := by
    rw [hp2, hrgbE']
    exact parse_rgb_string _ _ _ hrlt hglt hblt
  have hhexE' : hexEntry = ⟨str "hex",
      '#' :: (padStart2 (natDigits 16 (16 * (charDigitVal c1.toLower).getD 0 +
          (charDigitVal c2.toLower).getD 0)) ++
        padStart2 (natDigits 16 (16 * (charDigitVal c3.toLower).getD 0 +
          (charDigitVal c4.toLower).getD 0)) ++
        padStart2 (natDigits 16 (16 * (charDigitVal c5.toLower).getD 0 +
          (charDigitVal c6.toLower).getD 0)))⟩ := by
    rw [hhexE, hp2']
    rw [convert_rgb_hex _ _ _ hrlt hglt hblt]
    rfl
  refine ⟨by rw [hp1'], by rw [hrgbE'], by rw [hhexE'], ?_⟩
  rw [hhexE']
  rw [byte_pad16 _ hrlt, byte_pad16 _ hglt, byte_pad16 _ hblt]
  have e1 : (16 * (charDigitVal c1.toLower).getD 0 + (charDigitVal c2.toLower).getD 0) / 16
      = (charDigitVal c1.toLower).getD 0 := by omega
  have e2 : (16 * (charDigitVal c1.toLower).getD 0 + (charDigitVal c2.toLower).getD 0) % 16
      = (charDigitVal c2.toLower).getD 0 := by omega
  have e3 : (16 * (charDigitVal c3.toLower).getD 0 + (charDigitVal c4.toLower).getD 0) / 16
      = (charDigitVal c3.toLower).getD 0 := by omega
  have e4 : (16 * (charDigitVal c3.toLower).getD 0 + (charDigitVal c4.toLower).getD 0) % 16
      = (charDigitVal c4.toLower).getD 0 := by omega
  have e5 : (16 * (charDigitVal c5.toLower).getD 0 + (charDigitVal c6.toLower).getD 0) / 16
      = (charDigitVal c5.toLower).getD 0 := by omega
  have e6 : (16 * (charDigitVal c5.toLower).getD 0 + (charDigitVal c6.toLower).getD 0) % 16
      = (charDigitVal c6.toLower).getD 0 := by omega
  rw [e1, e2, e3, e4, e5, e6, d1, d2, d3, d4, d5, d6]
  rfl

/-- Witness for claim C7 at `"#ff7f50"`. -/
theorem claim7_hex_roundtrip_witness :
    (parseColor ['#', 'f', 'f', '7', 'f', '5', '0']).format = str "hex" ∧
      ((convertColor (parseColor ['#', 'f', 'f', '7', 'f', '5', '0']).format
          (parseColor ['#', 'f', 'f', '7', 'f', '5', '0']).values).getD 1
        ⟨[], []⟩).format = str "rgb" ∧
      ((convertColor
          (parseColor (((convertColor
              (parseColor ['#', 'f', 'f', '7', 'f', '5', '0']).format
              (parseColor ['#', 'f', 'f', '7', 'f', '5', '0']).values).getD 1
            ⟨[], []⟩).value)).format
          (parseColor (((convertColor
              (parseColor ['#', 'f', 'f', '7', 'f', '5', '0']).format
              (parseColor ['#', 'f', 'f', '7', 'f', '5', '0']).values).getD 1
            ⟨[], []⟩).value)).values).getD 1 ⟨[], []⟩).format = str "hex" ∧
      ((convertColor
          (parseColor (((convertColor
              (parseColor ['#', 'f', 'f', '7', 'f', '5', '0']).format
              (parseColor ['#', 'f', 'f', '7', 'f', '5', '0']).values).getD 1
            ⟨[], []⟩).value)).format
          (parseColor (((convertColor
              (parseColor ['#', 'f', 'f', '7', 'f', '5', '0']).format
              (parseColor ['#', 'f', 'f', '7', 'f', '5', '0']).values).getD 1
            ⟨[], []⟩).value)).values).getD 1 ⟨[], []⟩).value =
        '#' :: ['f'.toLower, 'f'.toLower, '7'.toLower, 'f'.toLower, '5'.toLower,
          '0'.toLower] :=
  claim7_hex_roundtrip 'f' 'f' '7' 'f' '5' '0' (by decide) (by decide) (by decide)
    (by decide) (by decide) (by decide) _ _ _ _ rfl rfl rfl rfl

end ColorConverter
